import Mathlib

/-!
Verification development for the Tonk card-game backend.

The definitions below are a shallow embedding of the backend's game engine:
`src/utils/cards.js`, `src/utils/gameRules.js`, the AI module, and the game
controller (`src/controllers/gameController.js`).  JavaScript numbers that
only ever hold small integers are modelled as `Int` (card values, scores,
penalties, money) or `Nat` (indices, counts); JavaScript's `Math.random`
stream is modelled as an explicit `Nat → Nat` argument (each value is used
modulo the current bound, matching `Math.floor(Math.random() * n)` which
yields a uniform value in `[0, n)`).  Timestamps and audit-only fields
(`turnStartTime`, `lastActionAt`, `lastAction`, avatars) are omitted: no
game logic reads them.  Database persistence and socket broadcast are
external collaborators; balance updates are modelled as explicit functions
on the balance value.
-/

/-- Card record, as in `models/Game.js` `cardSchema` and `utils/cards.js`. -/
structure Card where
  id : String
  suit : String
  rank : String
  value : Int
  isHidden : Bool
deriving Repr, DecidableEq

/-- Player record, as in `models/Game.js` `playerSchema` (avatar/dropTime omitted). -/
structure Player where
  id : String
  username : String
  isAI : Bool
  hand : List Card
  isDropped : Bool
  canDrop : Bool
  score : Int
  penalties : Int
  hitCount : Int
  hasDrawn : Bool
deriving Repr, DecidableEq

/-- Game record, as in `models/Game.js` `gameSchema` (timestamps and
`lastAction` audit fields omitted: nothing in the engine reads them). -/
structure Game where
  players : List Player
  currentPlayerIndex : Nat
  deck : List Card
  discardPile : List Card
  status : String
  stake : Int
  pot : Int
  winner : Option String
  winningMultiplier : Int
deriving Repr, DecidableEq

/-- `calculateHandScore` from `utils/cards.js`: left fold of card values from 0. -/
def calculateHandScore (hand : List Card) : Int :=
  hand.foldl (fun sum card => sum + card.value) 0

/-- `canPlayerDrop` from `utils/gameRules.js`. -/
def canPlayerDrop (player : Player) (isFirstTurn : Bool := false) : Bool :=
  if player.penalties > 0 then
    false
  else
    let score := calculateHandScore player.hand
    if score ≤ 11 then
      true
    else if isFirstTurn && score ≤ 41 then
      true
    else
      score ≤ 50

/-- `calculateWinningMultiplier` from `utils/gameRules.js`. -/
def calculateWinningMultiplier (score : Int) (isFirstTurn : Bool := false) : Int :=
  if score ≤ 11 then
    3
  else if isFirstTurn && score == 41 then
    3
  else if score == 50 then
    2
  else
    1

/-- Stable insertion sort modelling `Array.prototype.sort` with a consistent
comparator (ES2019 sort is stable).  `bef y x = true` means `y` must stay
strictly before `x`; elements comparing equal keep their original order. -/
def insertStable {α : Type} (bef : α → α → Bool) (x : α) : List α → List α
  | [] => [x]
  | y :: ys => if bef y x then y :: insertStable bef x ys else x :: y :: ys

/-- Stable sort built from `insertStable`. -/
def sortStable {α : Type} (bef : α → α → Bool) : List α → List α
  | [] => []
  | x :: xs => insertStable bef x (sortStable bef xs)

/-- `isValidSpread` from `utils/cards.js`.  The JS filters out falsy/partial
card objects (`card && card.rank && card.suit`); in the embedding all cards
are records, so the filter keeps cards whose rank and suit strings are
non-empty (empty string is the only falsy string). -/
def isValidSpread (cards : List Card) : Bool :=
  if cards.length < 3 then false
  else
    let validCards := cards.filter (fun card => card.rank ≠ "" && card.suit ≠ "")
    if validCards.length < 3 then false
    else
      match validCards.head? with
      | none => false
      | some c0 =>
        let isSet := validCards.all (fun card => card.rank = c0.rank)
        if isSet then true
        else
          let sameSuit := validCards.all (fun card => card.suit = c0.suit)
          if !sameSuit then false
          else
            let ordered := sortStable (fun a b => a.value < b.value) validCards
            let values := ordered.map Card.value
            if values.dedup.length ≠ values.length then false
            else
              (List.range (ordered.length - 1)).all (fun i =>
                match ordered.get? (i + 1), ordered.get? i with
                | some cNext, some cPrev => cNext.value == cPrev.value + 1
                | _, _ => true)

/-- `needsReshuffle` from `utils/cards.js`. -/
def needsReshuffle (deck discardPile : List Card) (threshold : Nat := 5) : Bool :=
  deck.length ≤ threshold && discardPile.length > 1

/-- Swap two positions of a list (both indices in range, else no-op), the
body of one Fisher–Yates iteration in `utils/cards.js` `shuffle`. -/
def swapIdx {α : Type} (l : List α) (i j : Nat) : List α :=
  match l.get? i, l.get? j with
  | some a, some b => (l.set i b).set j a
  | _, _ => l

/-- Fisher–Yates main loop from `utils/cards.js` `shuffle`: with
`currentIndex = k + 1` the JS picks `randomIndex ∈ [0, k]`, decrements
`currentIndex` to `k` and swaps positions `k` and `randomIndex`.  The random
stream `rs` is indexed by the value of `currentIndex` before the decrement. -/
def fisherYatesAux {α : Type} (rs : Nat → Nat) : Nat → List α → List α
  | 0, l => l
  | k + 1, l => fisherYatesAux rs k (swapIdx l k (rs (k + 1) % (k + 1)))

/-- `shuffle` from `utils/cards.js` (Fisher–Yates over a copy of the array). -/
def shuffle {α : Type} (l : List α) (rs : Nat → Nat) : List α :=
  fisherYatesAux rs l.length l

/-- `reshuffleDeck` from `utils/cards.js`: keep the top discard, shuffle the
rest of the discard pile into whatever deck cards remain. -/
def reshuffleDeck (deck discardPile : List Card) (rs : Nat → Nat) :
    List Card × List Card :=
  if discardPile.length ≤ 1 then
    (deck, discardPile)
  else
    match discardPile with
    | [] => (deck, discardPile)
    | topDiscard :: cardsToShuffle =>
      (shuffle (deck ++ cardsToShuffle) rs, [topDiscard])

/-- `hideCard`-style masking used inline by `sanitizeGameForPlayer` in
`controllers/gameController.js`. -/
def hideCardView (card : Card) : Card :=
  { id := card.id, suit := "?", rank := "?", value := 0, isHidden := true }

/-- Rank-to-value table from `utils/cards.js` `createDeck` (`values[rank]`;
a rank outside the table would be `undefined`, never hit for the ten listed
ranks — mapped to 0 here). -/
def rankValue (rank : String) : Int :=
  if rank = "A" then 1
  else if rank = "2" then 2
  else if rank = "3" then 3
  else if rank = "4" then 4
  else if rank = "5" then 5
  else if rank = "6" then 6
  else if rank = "7" then 7
  else if rank = "J" then 10
  else if rank = "Q" then 10
  else if rank = "K" then 10
  else 0

/-- Decimal digits of a small natural number, with explicit fuel so the
kernel can evaluate it (`fuel ≥ n` suffices; ids only reach 39). -/
def natDigits : Nat → Nat → List Char
  | 0, _ => []
  | fuel + 1, n =>
    if n < 10 then [Char.ofNat (48 + n)]
    else natDigits fuel (n / 10) ++ [Char.ofNat (48 + n % 10)]

/-- Kernel-computable decimal rendering of a natural number (the JS code
uses template interpolation / `String(n)`). -/
def natToString (n : Nat) : String :=
  ⟨natDigits (n + 1) n⟩

/-- Kernel-computable decimal rendering of an integer. -/
def intToString : Int → String
  | Int.ofNat n => natToString n
  | Int.negSucc n => "-" ++ natToString (n + 1)

/-- Suit list from `utils/cards.js` `createDeck`. -/
def tonkSuits : List String := ["hearts", "diamonds", "clubs", "spades"]

/-- Rank list from `utils/cards.js` `createDeck`. -/
def tonkRanks : List String := ["A", "2", "3", "4", "5", "6", "7", "J", "Q", "K"]

/-- The 40-card deck built by `createDeck` before shuffling: nested loops
over suits then ranks, ids `card-0` … `card-39` from a running counter. -/
def baseDeck : List Card :=
  ((tonkSuits.map (fun suit => tonkRanks.map (fun rank => (suit, rank)))).flatten).enum.map
    (fun p =>
      { id := "card-" ++ natToString p.1
        suit := p.2.1
        rank := p.2.2
        value := rankValue p.2.2
        isHidden := false })

/-- `createDeck` from `utils/cards.js`: the 40-card base deck, shuffled. -/
def createDeck (rs : Nat → Nat) : List Card :=
  shuffle baseDeck rs

/-- One dealing round of `dealCards` from `utils/cards.js`: each hand in
order receives `deckCopy.pop()` (the last element) when the deck is
non-empty. -/
def dealOneRound : List (List Card) → List Card → List (List Card) × List Card
  | [], deck => ([], deck)
  | h :: hs, deck =>
    match deck.getLast? with
    | some c =>
      let rest := dealOneRound hs deck.dropLast
      ((h ++ [c]) :: rest.1, rest.2)
    | none =>
      let rest := dealOneRound hs deck
      (h :: rest.1, rest.2)

/-- The five dealing rounds of `dealCards`. -/
def dealRounds : Nat → List (List Card) → List Card → List (List Card) × List Card
  | 0, hands, deck => (hands, deck)
  | n + 1, hands, deck =>
    let step := dealOneRound hands deck
    dealRounds n step.1 step.2

/-- `dealCards` from `utils/cards.js`: 5 cards each, dealt round-robin from
the live end of the deck. -/
def dealCards (deck : List Card) (playerCount : Nat) :
    List (List Card) × List Card :=
  dealRounds 5 (List.replicate playerCount []) deck

/-- A spread found by `findExistingSpreads` (`{type, cards, indices}` in JS). -/
structure Spread where
  type : String
  cards : List Card
  indices : List Nat
deriving Repr, DecidableEq

/-- A spread found by `findPlayableSpreads` (`{cards, type, score}` in JS). -/
structure PlayableSpread where
  cards : List Card
  type : String
  score : Int
deriving Repr, DecidableEq

/-- One penalty record in the list returned by `applyHitPenalties`. -/
structure Penalty where
  playerId : String
  penaltyTurns : Int
  hitSpread : Spread
deriving Repr, DecidableEq

/-- Whether a string is a canonical array-index key for a JS object
(JS objects iterate such keys first, in ascending numeric order): non-empty,
all digits, and no leading zero except for `"0"` itself.  This is
`String(n) === s` for the small keys that occur here, spelled out on the
character list so the kernel can evaluate it. -/
def jsIsArrayIndex (s : String) : Bool :=
  match s.data with
  | [] => false
  | c :: cs => (c :: cs).all Char.isDigit && (c ≠ '0' || cs.isEmpty)

/-- Numeric value of an all-digit key (used only to order numeric keys). -/
def jsKeyValue (s : String) : Nat :=
  s.data.foldl (fun acc c => acc * 10 + (c.toNat - 48)) 0

/-- Key iteration order of a JS object built by inserting the given keys in
order: canonical numeric keys first in ascending numeric order, then the
remaining keys in first-insertion order. -/
def jsObjectKeys (keys : List String) : List String :=
  let firstSeen := keys.dedup
  let numeric := firstSeen.filter jsIsArrayIndex
  let numericSorted :=
    sortStable (fun a b => jsKeyValue a < jsKeyValue b) numeric
  let others := firstSeen.filter (fun k => !jsIsArrayIndex k)
  numericSorted ++ others

/-- Build a run spread record from a current run of `(index, card)` entries,
as pushed by the run scan in `findExistingSpreads`. -/
def mkRunSpread (currentRun : List (Nat × Card)) : Spread :=
  { type := "run", cards := currentRun.map Prod.snd, indices := currentRun.map Prod.fst }

/-- The consecutive-sequence scan of `findExistingSpreads`: extends the
current run while the next value is exactly one above the run's last value,
otherwise flushes the run (if it has ≥ 3 cards) and restarts. -/
def runScan (currentRun : List (Nat × Card)) : List (Nat × Card) → List Spread
  | [] => if currentRun.length ≥ 3 then [mkRunSpread currentRun] else []
  | x :: rest =>
    match currentRun.getLast? with
    | some lastEntry =>
      if x.2.value == lastEntry.2.value + 1 then
        runScan (currentRun ++ [x]) rest
      else
        (if currentRun.length ≥ 3 then [mkRunSpread currentRun] else []) ++
          runScan [x] rest
    | none => runScan [x] rest

/-- `findExistingSpreads` from `utils/gameRules.js`: rank groups of size ≥ 3
become sets (their indices marked used); among unused cards, suit groups are
sorted by value and scanned for consecutive runs of length ≥ 3.  Group
iteration follows JS object key order (`jsObjectKeys`). -/
def findExistingSpreads (hand : List Card) : List Spread :=
  let entries := hand.enum
  let rankKeys := jsObjectKeys (hand.map Card.rank)
  let setSpreads :=
    (rankKeys.map (fun k =>
      let group := entries.filter (fun p => p.2.rank = k)
      if group.length ≥ 3 then
        [Spread.mk "set" (group.map Prod.snd) (group.map Prod.fst)]
      else [])).flatten
  let used := (setSpreads.map Spread.indices).flatten
  let remaining := entries.filter (fun p => !used.contains p.1)
  let suitKeys := jsObjectKeys (remaining.map (fun p => p.2.suit))
  let runSpreads :=
    (suitKeys.map (fun k =>
      let group := remaining.filter (fun p => p.2.suit = k)
      if group.length ≥ 3 then
        match sortStable (fun a b => a.2.value < b.2.value) group with
        | [] => []
        | g0 :: gtail => runScan [g0] gtail
      else [])).flatten
  setSpreads ++ runSpreads

/-- `cardHitsSpread` from `utils/gameRules.js`: a card hits a set when ranks
match, and hits a run when it shares the suit and its value is exactly one
below the minimum or one above the maximum of the run's values. -/
def cardHitsSpread (card : Card) (spread : Spread) : Bool :=
  if spread.type = "set" then
    match spread.cards.head? with
    | some c0 => card.rank = c0.rank
    | none => false
  else if spread.type = "run" then
    match spread.cards.head? with
    | some c0 =>
      if card.suit ≠ c0.suit then false
      else
        let values := sortStable (fun a b => a < b) (spread.cards.map Card.value)
        match values.head?, values.getLast? with
        | some minValue, some maxValue =>
          card.value == minValue - 1 || card.value == maxValue + 1
        | _, _ => false
    | none => false
  else false

/-- First spread in a list hit by the card (inner loop of `wouldHitSpread`). -/
def findHitSpread (card : Card) : List Spread → Option Spread
  | [] => none
  | s :: rest => if cardHitsSpread card s then some s else findHitSpread card rest

/-- `wouldHitSpread` from `utils/gameRules.js`: scans every player other
than `targetPlayer` in order and returns the first hit `(playerId, spread)`
among that player's existing spreads. -/
def wouldHitSpread (card : Card) (targetPlayer : Player) :
    List Player → Option (String × Spread)
  | [] => none
  | p :: rest =>
    if p.id = targetPlayer.id then
      wouldHitSpread card targetPlayer rest
    else
      match findHitSpread card (findExistingSpreads p.hand) with
      | some s => some (p.id, s)
      | none => wouldHitSpread card targetPlayer rest

/-- Loop body of `applyHitPenalties` from `utils/gameRules.js`: visits the
players by ascending position (`fuel` counts the remaining positions,
`i` is the current one), skipping the drawing player; a visited player for
whom `wouldHitSpread` reports a hit gets `penalties = 2 + hitCount` and
`hitCount + 1`, and a penalty record is appended.  The players list passed
to `wouldHitSpread` carries the updates made so far, exactly as the JS
`forEach` mutates `game.players` in place. -/
def applyHitGo (card : Card) (drawingPlayerId : String) :
    Nat → Nat → List Player → List Penalty → List Player × List Penalty
  | 0, _, ps, pens => (ps, pens)
  | fuel + 1, i, ps, pens =>
    match ps.get? i with
    | none => (ps, pens)
    | some player =>
      if player.id = drawingPlayerId then
        applyHitGo card drawingPlayerId fuel (i + 1) ps pens
      else
        match wouldHitSpread card player ps with
        | none => applyHitGo card drawingPlayerId fuel (i + 1) ps pens
        | some hit =>
          let newPenalties := 2 + player.hitCount
          let player2 :=
            { player with penalties := newPenalties, hitCount := player.hitCount + 1 }
          applyHitGo card drawingPlayerId fuel (i + 1) (ps.set i player2)
            (pens ++ [Penalty.mk player.id newPenalties hit.2])

/-- `applyHitPenalties` from `utils/gameRules.js` (players list in, updated
players list and penalty records out). -/
def applyHitPenalties (players : List Player) (card : Card)
    (drawingPlayerId : String) : List Player × List Penalty :=
  applyHitGo card drawingPlayerId players.length 0 players []

/-- `getCombinations` from `utils/gameRules.js`.  Size 0 is unreachable from
the only caller (`findPlayableSpreads` starts at size 3; in JS a size-0 call
would recurse forever) and is mapped to `[]`. -/
def getCombinations (arr : List Card) : Nat → List (List Card)
  | 0 => []
  | 1 => arr.map (fun item => [item])
  | size + 2 =>
    if size + 2 > arr.length then []
    else
      ((List.range (arr.length - (size + 2) + 1)).map (fun i =>
        match arr.get? i with
        | some a =>
          (getCombinations (arr.drop (i + 1)) (size + 1)).map (fun combo => a :: combo)
        | none => [])).flatten

/-- `findPlayableSpreads` from `utils/gameRules.js`: all subsets of size
3 … hand.length that form a valid spread, tagged set/run with their score. -/
def findPlayableSpreads (hand : List Card) : List PlayableSpread :=
  ((List.range' 3 (hand.length - 2)).map (fun size =>
    (getCombinations hand size).filterMap (fun combo =>
      if isValidSpread combo then
        some
          { cards := combo
            type :=
              match combo.head? with
              | some c0 => if combo.all (fun c => c.rank = c0.rank) then "set" else "run"
              | none => "run"
            score := combo.foldl (fun sum card => sum + card.value) 0 }
      else none))).flatten

/-- Result record returned by the validators in `utils/gameRules.js`
(`{valid, error?}`). -/
structure ValidationResult where
  valid : Bool
  error : Option String
deriving Repr, DecidableEq

/-- The loosely-typed action payload (`{cardId?, cardIds?, source?}`)
accepted by `isValidMove` and `performAction`. -/
structure ActionData where
  cardId : Option String := none
  cardIds : Option (List String) := none
  source : Option String := none
deriving Repr, DecidableEq

/-- `validateDraw` from `utils/gameRules.js`. -/
def validateDraw (game : Game) (_player : Player) (data : ActionData) :
    ValidationResult :=
  if data.source = some "discard" && game.discardPile.length = 0 then
    { valid := false, error := some "Discard pile is empty" }
  else if data.source = some "deck" && game.deck.length = 0 &&
      game.discardPile.length ≤ 1 then
    { valid := false, error := some "No cards available to draw" }
  else
    { valid := true, error := none }

/-- `validateDiscard` from `utils/gameRules.js` (`!cardId` is true for a
missing card id and for the empty string, the only falsy string). -/
def validateDiscard (_game : Game) (player : Player) (data : ActionData) :
    ValidationResult :=
  match data.cardId with
  | none => { valid := false, error := some "Card ID required" }
  | some cardId =>
    if cardId = "" then
      { valid := false, error := some "Card ID required" }
    else if player.hand.any (fun card => card.id = cardId) then
      { valid := true, error := none }
    else
      { valid := false, error := some "Card not in hand" }

/-- `validateDrop` from `utils/gameRules.js`. -/
def validateDrop (game : Game) (player : Player) (_data : ActionData) :
    ValidationResult :=
  if player.penalties > 0 then
    { valid := false
      error := some ("Cannot drop for " ++ intToString player.penalties ++
        " more turns due to penalties") }
  else
    let score := calculateHandScore player.hand
    let isFirstTurn := game.players.all (fun p => !p.isDropped || p.id == player.id)
    if !canPlayerDrop player isFirstTurn then
      { valid := false, error := some ("Cannot drop with score " ++ intToString score) }
    else
      { valid := true, error := none }

/-- `validateSpread` from `utils/gameRules.js`. -/
def validateSpread (_game : Game) (player : Player) (data : ActionData) :
    ValidationResult :=
  match data.cardIds with
  | none => { valid := false, error := some "At least 3 cards required for spread" }
  | some cardIds =>
    if cardIds.length < 3 then
      { valid := false, error := some "At least 3 cards required for spread" }
    else
      let cards := cardIds.map (fun cid => player.hand.find? (fun card => card.id = cid))
      if cards.any (fun c => c.isNone) then
        { valid := false, error := some "One or more cards not in hand" }
      else if !isValidSpread (cards.reduceOption) then
        { valid := false, error := some "Invalid spread combination" }
      else
        { valid := true, error := none }

/-- `isValidMove` from `utils/gameRules.js`: finds the acting player (first
id match, `find` + `indexOf` in JS), rejects dropped players and
out-of-turn actors, then dispatches per action kind. -/
def isValidMove (game : Game) (playerId : String) (action : String)
    (data : ActionData) : ValidationResult :=
  match game.players.enum.find? (fun ip => ip.2.id = playerId) with
  | none => { valid := false, error := some "Player not found" }
  | some ip =>
    if ip.2.isDropped then
      { valid := false, error := some "Player already dropped" }
    else if game.currentPlayerIndex ≠ ip.1 then
      { valid := false, error := some "Not your turn" }
    else if action = "draw" then validateDraw game ip.2 data
    else if action = "discard" then validateDiscard game ip.2 data
    else if action = "drop" then validateDrop game ip.2 data
    else if action = "spread" then validateSpread game ip.2 data
    else { valid := false, error := some "Invalid action" }

/-- In-place update of the player at a position (the JS code mutates
`game.players[playerIndex]` through an object reference). -/
def updateAt (players : List Player) (i : Nat) (f : Player → Player) : List Player :=
  match players.get? i with
  | some p => players.set i (f p)
  | none => players

/-- Shared tail of `handleDraw` in `controllers/gameController.js`: push the
drawn card into the drawer's hand, apply hit penalties when the card came
from the deck (the JS calls `applyHitPenalties(game, drawnCard, player.id)`
after the push, so other players' spread checks see the updated hand), then
recompute the drawer's score and drop eligibility and set `hasDrawn`. -/
def drawUpdate (game : Game) (playerIndex : Nat) (drawingPlayerId : String)
    (drawnCard : Card) (fromDiscard : Bool) : Game :=
  let g1 :=
    { game with
      players := updateAt game.players playerIndex
        (fun p => { p with hand := p.hand ++ [drawnCard] }) }
  let g2 :=
    if fromDiscard then g1
    else
      { g1 with players := (applyHitPenalties g1.players drawnCard drawingPlayerId).1 }
  { g2 with
    players := updateAt g2.players playerIndex
      (fun p =>
        { p with
          score := calculateHandScore p.hand
          canDrop := canPlayerDrop p false
          hasDrawn := true }) }

/-- `handleDraw` from `controllers/gameController.js`: take the top of the
discard pile, or reshuffle if needed and pop the deck. -/
def handleDraw (game : Game) (playerIndex : Nat) (fromDiscard : Bool)
    (rs : Nat → Nat) : Except String Game :=
  match game.players.get? playerIndex with
  | none => Except.error "Player not found"
  | some player =>
    if fromDiscard then
      match game.discardPile with
      | [] => Except.error "Discard pile is empty"
      | drawnCard :: rest =>
        Except.ok (drawUpdate { game with discardPile := rest } playerIndex
          player.id drawnCard true)
    else
      let afterReshuffle :=
        if needsReshuffle game.deck game.discardPile then
          let r := reshuffleDeck game.deck game.discardPile rs
          { game with deck := r.1, discardPile := r.2 }
        else game
      match afterReshuffle.deck.getLast? with
      | none => Except.error "No cards available to draw"
      | some drawnCard =>
        Except.ok (drawUpdate
          { afterReshuffle with deck := afterReshuffle.deck.dropLast }
          playerIndex player.id drawnCard false)

/-- Loop of `getNextActivePlayer` from `controllers/gameController.js`,
with explicit fuel (the JS `while` advances at most `players.length` times
before its `nextIndex === currentPlayerIndex` guard breaks). -/
def nextActiveGo (players : List Player) (cur : Nat) : Nat → Nat → Nat
  | 0, next => next
  | fuel + 1, next =>
    match players.get? next with
    | none => next
    | some p =>
      if p.isDropped then
        let next2 := (next + 1) % players.length
        if next2 = cur then next2 else nextActiveGo players cur fuel next2
      else next

/-- `getNextActivePlayer` from `controllers/gameController.js`. -/
def getNextActivePlayer (game : Game) (currentPlayerIndex : Nat) : Nat :=
  nextActiveGo game.players currentPlayerIndex game.players.length
    ((currentPlayerIndex + 1) % game.players.length)

/-- `handleDiscard` from `controllers/gameController.js`: remove the named
card from the hand, prepend it to the discard pile, recompute the
discarder's score/eligibility and clear `hasDrawn`, then decrement every
player's positive penalty count and recompute every player's `canDrop`
(with the decremented penalties), and advance to the next active seat. -/
def handleDiscard (game : Game) (playerIndex : Nat) (cardId : String) :
    Except String Game :=
  match game.players.get? playerIndex with
  | none => Except.error "Player not found"
  | some player =>
    match player.hand.findIdx? (fun card => card.id = cardId) with
    | none => Except.error "Card not found in hand"
    | some cardIndex =>
      match player.hand.get? cardIndex with
      | none => Except.error "Card not found in hand"
      | some card =>
        let g1 : Game :=
          { game with
            players := updateAt game.players playerIndex
              (fun p =>
                let newHand := p.hand.eraseIdx cardIndex
                { p with
                  hand := newHand
                  score := calculateHandScore newHand
                  canDrop := canPlayerDrop { p with hand := newHand } false
                  hasDrawn := false })
            discardPile := card :: game.discardPile }
        let g2 : Game :=
          { g1 with
            players := g1.players.map (fun p =>
              let p2 : Player :=
                { p with
                  penalties := if p.penalties > 0 then p.penalties - 1 else p.penalties }
              { p2 with canDrop := canPlayerDrop p2 false }) }
        Except.ok { g2 with currentPlayerIndex := getNextActivePlayer g2 playerIndex }

/-- `endGame` from `controllers/gameController.js`: marks the game ended and
computes `winnings = pot × multiplier` (balance/stat/table updates are
external collaborators; see `creditWinner`). -/
def endGame (game : Game) (winnerId : String) (multiplier : Int) : Game × Int :=
  ({ game with
      status := "ended"
      winner := some winnerId
      winningMultiplier := multiplier },
    game.pot * multiplier)

/-- Character-list prefix test (kernel-computable `String.startsWith`). -/
def charListIsPrefixOf : List Char → List Char → Bool
  | [], _ => true
  | _ :: _, [] => false
  | c :: cs, d :: ds => c == d && charListIsPrefixOf cs ds

/-- The balance update in `endGame`: the winnings are credited only when the
winner id is not an AI id (`!winnerId.startsWith('ai-')`). -/
def creditWinner (winnerId : String) (balance winnings : Int) : Int :=
  if charListIsPrefixOf "ai-".data winnerId.data then balance
  else balance + winnings

/-- `handleDrop` from `controllers/gameController.js`.  Returns the updated
game and, when the drop ended the game, the winnings computed by `endGame`
(`none` when play continues). -/
def handleDrop (game : Game) (playerIndex : Nat) :
    Except String (Game × Option Int) :=
  match game.players.get? playerIndex with
  | none => Except.error "Player not found"
  | some player =>
    let score := calculateHandScore player.hand
    let isFirstTurn := game.players.all (fun p => !p.isDropped || p.id == player.id)
    let multiplier := calculateWinningMultiplier score isFirstTurn
    let g1 : Game :=
      { game with
        players := updateAt game.players playerIndex
          (fun p => { p with score := score, isDropped := true }) }
    let activePlayers := g1.players.filter (fun p => !p.isDropped)
    if activePlayers.length ≤ 1 then
      let r := endGame g1 player.id multiplier
      Except.ok (r.1, some r.2)
    else
      Except.ok
        ({ g1 with currentPlayerIndex := getNextActivePlayer g1 playerIndex }, none)

/-- `performAction` from `controllers/gameController.js` (single action,
before the AI cascade): status check, membership check, validation, then
dispatch.  The `spread` branch throws in JS (`handleSpread` is
unimplemented). -/
def performAction (game : Game) (userId : String) (action : String)
    (data : ActionData) (rs : Nat → Nat) : Except String Game :=
  if game.status ≠ "playing" then
    Except.error "Game is not in progress"
  else
    match game.players.findIdx? (fun p => p.id = userId) with
    | none => Except.error "Not a player in this game"
    | some playerIndex =>
      let validation := isValidMove game userId action data
      if !validation.valid then
        Except.error (validation.error.getD "Invalid action")
      else if action = "draw" then
        handleDraw game playerIndex (data.source = some "discard") rs
      else if action = "discard" then
        handleDiscard game playerIndex (data.cardId.getD "")
      else if action = "drop" then
        (handleDrop game playerIndex).map Prod.fst
      else if action = "spread" then
        Except.error "Spread action not implemented in this version"
      else
        Except.error "Invalid action"

/-- `sanitizeGameForPlayer` from `controllers/gameController.js`: mask the
hands of players other than the viewer that have not dropped (the masked
card literal is exactly `hideCardView`). -/
def sanitizeGameForPlayer (game : Game) (playerId : String) : Game :=
  { game with
    players := game.players.map (fun player =>
      if player.id ≠ playerId && !player.isDropped then
        { player with hand := player.hand.map hideCardView }
      else player) }

/-- A discard candidate from `analyzeDiscardCandidates` (`{card, priority}`).
JS float arithmetic on the priorities is modelled with exact rationals; the
only property proved about them (the chosen card belongs to the hand) does
not depend on rounding. -/
structure DiscardCandidate where
  card : Card
  priority : ℚ
deriving Repr, DecidableEq

/-- `isPartOfPotentialSpread` from the AI module: another card of the same
rank, or a same-suit card within value distance 2, makes the card useful. -/
def isPartOfPotentialSpread (card : Card) (hand : List Card) : Bool :=
  let otherCards := hand.filter (fun c => c.id ≠ card.id)
  let sameRank := otherCards.filter (fun c => c.rank = card.rank)
  if sameRank.length ≥ 1 then true
  else
    let sameSuit := otherCards.filter (fun c => c.suit = card.suit)
    if sameSuit.length ≥ 1 then
      sameSuit.any (fun suitCard => (suitCard.value - card.value).natAbs ≤ 2)
    else false

/-- `couldCompleteSpread` from the AI module: removing the card would reduce
the number of playable spreads. -/
def couldCompleteSpread (card : Card) (hand : List Card) : Bool :=
  let withoutCard := hand.filter (fun c => c.id ≠ card.id)
  (findPlayableSpreads hand).length > (findPlayableSpreads withoutCard).length

/-- `mightHelpOpponents` from the AI module (low cards are deemed useful). -/
def mightHelpOpponents (card : Card) (_game : Game) : Bool :=
  card.value ≤ 5

/-- `analyzeDiscardCandidates` from the AI module: priority
`0.1·value − 0.5·[useful] − 0.7·[completes spread] − 0.3·[hard ∧ helps opponents]`. -/
def analyzeDiscardCandidates (hand : List Card) (game : Game)
    (difficulty : String) : List DiscardCandidate :=
  hand.map (fun card =>
    let priority : ℚ := (card.value : ℚ) * (1 / 10)
    let priority := if isPartOfPotentialSpread card hand then priority - 1 / 2 else priority
    let priority := if couldCompleteSpread card hand then priority - 7 / 10 else priority
    let priority :=
      if difficulty = "hard" && mightHelpOpponents card game then priority - 3 / 10
      else priority
    { card := card, priority := priority })

/-- `decideCardToDiscard` from the AI module: `null` on an empty hand, the
single card of a one-card hand, otherwise the head of the candidates sorted
by descending priority (`candidates[0]?.card.id || hand[0].id`; the JS `||`
falls back to the first hand card when the chosen id is falsy, i.e. the
empty string). -/
def decideCardToDiscard (hand : List Card) (game : Game)
    (difficulty : String := "medium") : Option String :=
  match hand with
  | [] => none
  | [c] => some c.id
  | c1 :: c2 :: rest =>
    let candidates := analyzeDiscardCandidates (c1 :: c2 :: rest) game difficulty
    let sorted := sortStable (fun a b => a.priority > b.priority) candidates
    match sorted.head? with
    | some cand => some (if cand.card.id = "" then c1.id else cand.card.id)
    | none => some c1.id

/-- Fresh human player record from `createGame` in
`controllers/gameController.js`. -/
def mkHumanPlayer (userId username : String) : Player :=
  { id := userId, username := username, isAI := false, hand := []
    isDropped := false, canDrop := false, score := 0, penalties := 0
    hitCount := 0, hasDrawn := false }

/-- AI display names from `getAIPersonality` in the AI module. -/
def getAIPersonalityName (aiId : String) : String :=
  if aiId = "ai-1" then "Rookie"
  else if aiId = "ai-2" then "Challenger"
  else if aiId = "ai-3" then "Expert"
  else "Player"

/-- Fresh AI player record from `createGame` (`ai-1` … `ai-3`). -/
def mkAIPlayer (i : Nat) : Player :=
  let aiId := "ai-" ++ natToString (i + 1)
  { id := aiId, username := getAIPersonalityName aiId ++ " AI", isAI := true
    hand := [], isDropped := false, canDrop := false, score := 0
    penalties := 0, hitCount := 0, hasDrawn := false }

/-- The freshly created game of `createGame` in
`controllers/gameController.js`: shuffled 40-card deck, 1 human + 3 AI
players, 5 cards dealt to each, one card flipped from the remaining deck to
start the discard pile, status `playing`, pot = stake × 4, then first-turn
drop eligibility recomputed for every player.  (The `getLast?` fallback is
unreachable: 20 cards remain after dealing.) -/
def createGameState (stake : Int) (userId username : String)
    (rs : Nat → Nat) : Game :=
  let deck := createDeck rs
  let players :=
    mkHumanPlayer userId username :: (List.range 3).map mkAIPlayer
  let dealt := dealCards deck 4
  let playersWithHands :=
    (players.zip dealt.1).map (fun ph =>
      { ph.1 with hand := ph.2, score := calculateHandScore ph.2 })
  let deckAndDiscard : List Card × List Card :=
    match dealt.2.getLast? with
    | some top => (dealt.2.dropLast, [top])
    | none => (dealt.2, [])
  let playersReady :=
    playersWithHands.map (fun p => { p with canDrop := canPlayerDrop p true })
  { players := playersReady
    currentPlayerIndex := 0
    deck := deckAndDiscard.1
    discardPile := deckAndDiscard.2
    status := "playing"
    stake := stake
    pot := stake * 4
    winner := none
    winningMultiplier := 1 }

/-- One engine operation on a game in progress: a successful draw, a
successful discard, or a deck reshuffle (the operations of the deck
integrity property; the reshuffle also runs inside `handleDraw`). -/
inductive Step : Game → Game → Prop
  | draw (g g' : Game) (playerIndex : Nat) (fromDiscard : Bool) (rs : Nat → Nat)
      (hstatus : g.status = "playing")
      (h : handleDraw g playerIndex fromDiscard rs = Except.ok g') : Step g g'
  | discard (g g' : Game) (playerIndex : Nat) (cardId : String)
      (hstatus : g.status = "playing")
      (h : handleDiscard g playerIndex cardId = Except.ok g') : Step g g'
  | reshuffle (g : Game) (rs : Nat → Nat) (hstatus : g.status = "playing") :
      Step g
        { g with
          deck := (reshuffleDeck g.deck g.discardPile rs).1
          discardPile := (reshuffleDeck g.deck g.discardPile rs).2 }

/-- Reachability by any number of engine operations. -/
def Reachable : Game → Game → Prop :=
  Relation.ReflTransGen Step

/-- All cards of a game, across every hand, the deck and the discard pile. -/
def allCards (g : Game) : List Card :=
  (g.players.map Player.hand).flatten ++ g.deck ++ g.discardPile

/-- Test fixture: a face-up card. -/
def mkCard (id suit rank : String) (value : Int) : Card :=
  { id := id, suit := suit, rank := rank, value := value, isHidden := false }

/-- Test fixture: a human player with the given hand and default fields. -/
def mkPlayer (id : String) (hand : List Card) : Player :=
  { id := id, username := id, isAI := false, hand := hand, isDropped := false
    canDrop := false, score := 0, penalties := 0, hitCount := 0, hasDrawn := false }

/-- Fixture for the hit-penalty bug: `p0` is about to draw the 7♠ from the
deck; `p1` holds a set of three 7s; `p2` and `p3` hold no spreads. -/
def gHit : Game :=
  { players :=
      [ mkPlayer "p0"
          [mkCard "h1" "hearts" "A" 1, mkCard "h2" "clubs" "2" 2,
           mkCard "h3" "diamonds" "4" 4, mkCard "h4" "hearts" "Q" 10]
      , mkPlayer "p1"
          [mkCard "s1" "hearts" "7" 7, mkCard "s2" "diamonds" "7" 7,
           mkCard "s3" "clubs" "7" 7, mkCard "s4" "clubs" "A" 1,
           mkCard "s5" "diamonds" "2" 2]
      , mkPlayer "p2"
          [mkCard "t1" "diamonds" "A" 1, mkCard "t2" "hearts" "3" 3,
           mkCard "t3" "clubs" "5" 5, mkCard "t4" "diamonds" "J" 10,
           mkCard "t5" "clubs" "K" 10]
      , mkPlayer "p3"
          [mkCard "v1" "hearts" "2" 2, mkCard "v2" "clubs" "4" 4,
           mkCard "v3" "diamonds" "6" 6, mkCard "v4" "spades" "Q" 10,
           mkCard "v5" "diamonds" "K" 10] ]
    currentPlayerIndex := 0
    deck := [mkCard "d1" "spades" "K" 10, mkCard "d2" "spades" "7" 7]
    discardPile := [mkCard "q1" "diamonds" "Q" 10]
    status := "playing"
    stake := 1, pot := 4, winner := none, winningMultiplier := 1 }

/-- The per-player `(penalties, hitCount)` pairs of a draw outcome. -/
def drawPenaltyView (r : Except String Game) : Option (List (Int × Int)) :=
  match r with
  | Except.ok g => some (g.players.map (fun p => (p.penalties, p.hitCount)))
  | Except.error _ => none

/-- Fixture for turn-structure validation: the current player `p0` has
already drawn this turn (`hasDrawn = true`) and the deck is non-empty. -/
def gTurnA : Game :=
  { players :=
      [ { mkPlayer "p0" [mkCard "a1" "hearts" "A" 1] with hasDrawn := true }
      , mkPlayer "p1" [mkCard "a2" "clubs" "2" 2]
      , mkPlayer "p2" [mkCard "a3" "diamonds" "3" 3]
      , mkPlayer "p3" [mkCard "a4" "spades" "4" 4] ]
    currentPlayerIndex := 0
    deck := [mkCard "a5" "spades" "K" 10]
    discardPile := []
    status := "playing"
    stake := 1, pot := 4, winner := none, winningMultiplier := 1 }

/-- Fixture for turn-structure validation: the current player `p0` has not
drawn this turn (`hasDrawn = false`) and holds card `b1`. -/
def gTurnB : Game :=
  { players :=
      [ mkPlayer "p0" [mkCard "b1" "hearts" "A" 1]
      , mkPlayer "p1" [mkCard "b2" "clubs" "2" 2]
      , mkPlayer "p2" [mkCard "b3" "diamonds" "3" 3]
      , mkPlayer "p3" [mkCard "b4" "spades" "4" 4] ]
    currentPlayerIndex := 0
    deck := [mkCard "b5" "spades" "K" 10]
    discardPile := []
    status := "playing"
    stake := 1, pot := 4, winner := none, winningMultiplier := 1 }

/-- Fixture for the dropped-player freeze: `p3` has dropped while still
carrying one penalty turn; `p0` is about to discard. -/
def gFrozen : Game :=
  { players :=
      [ mkPlayer "p0" [mkCard "x1" "hearts" "K" 10, mkCard "x2" "clubs" "3" 3]
      , mkPlayer "p1" [mkCard "x3" "clubs" "2" 2]
      , mkPlayer "p2" [mkCard "x4" "diamonds" "3" 3]
      , { mkPlayer "p3" [mkCard "x5" "spades" "4" 4] with
          isDropped := true, penalties := 1 } ]
    currentPlayerIndex := 0
    deck := [mkCard "x6" "spades" "K" 10]
    discardPile := [mkCard "x7" "diamonds" "5" 5]
    status := "playing"
    stake := 1, pot := 4, winner := none, winningMultiplier := 1 }

/-- The penalties of the player at a position in a discard outcome. -/
def discardPenaltyAt (r : Except String Game) (i : Nat) : Option Int :=
  match r with
  | Except.ok g => (g.players.get? i).map Player.penalties
  | Except.error _ => none

/-- Fixture for sanitization: viewer `u1`, a dropped opponent `p1` holding a
real card, and an active opponent `p2`. -/
def gView : Game :=
  { players :=
      [ mkPlayer "u1" [mkCard "sc0" "spades" "A" 1]
      , { mkPlayer "p1" [mkCard "sc1" "hearts" "K" 10] with isDropped := true }
      , mkPlayer "p2" [mkCard "sc2" "clubs" "3" 3] ]
    currentPlayerIndex := 0
    deck := []
    discardPile := []
    status := "playing"
    stake := 1, pot := 4, winner := none, winningMultiplier := 1 }

/-- Fixture for the payout scenario: stake 5 (pot 20), human `u1` holding a
score-8 hand, all three opponents already dropped (so not the first turn). -/
def gPayout : Game :=
  { players :=
      [ mkPlayer "u1" [mkCard "w1" "hearts" "3" 3, mkCard "w2" "clubs" "5" 5]
      , { mkPlayer "ai-1" [mkCard "w3" "clubs" "2" 2] with isDropped := true }
      , { mkPlayer "ai-2" [mkCard "w4" "diamonds" "3" 3] with isDropped := true }
      , { mkPlayer "ai-3" [mkCard "w5" "spades" "4" 4] with isDropped := true } ]
    currentPlayerIndex := 0
    deck := [mkCard "w6" "spades" "K" 10]
    discardPile := [mkCard "w7" "diamonds" "5" 5]
    status := "playing"
    stake := 5, pot := 20, winner := none, winningMultiplier := 1 }

/-- The game part of a drop outcome (the input game on error). -/
def dropOutcome (g : Game) (i : Nat) : Game :=
  match handleDrop g i with
  | Except.ok p => p.1
  | Except.error _ => g

/-- Fixture for a score-12 hand with no penalties. -/
def p12 : Player :=
  mkPlayer "p12" [mkCard "y1" "hearts" "5" 5, mkCard "y2" "clubs" "7" 7]

/-- The game part of a discard outcome (the input game on error). -/
def discardOutcome (g : Game) (i : Nat) (cid : String) : Game :=
  match handleDiscard g i cid with
  | Except.ok g' => g'
  | Except.error _ => g

/-- A two-card hand used to exercise the AI discard choice. -/
def aiHand : List Card :=
  [mkCard "z1" "hearts" "A" 1, mkCard "z2" "clubs" "K" 10]

theorem canPlayerDrop_characterization (p : Player) (ft : Bool) :
    canPlayerDrop p ft = true ↔
      ¬ p.penalties > 0 ∧
        (calculateHandScore p.hand ≤ 11 ∨
          (ft = true ∧ calculateHandScore p.hand ≤ 41) ∨
          calculateHandScore p.hand ≤ 50) := by
  unfold canPlayerDrop
  rcases ft <;>
    rcases lt_or_le 0 p.penalties with hp | hp <;>
      simp [hp, not_lt.mpr hp, decide_eq_true_eq] <;>
      rcases le_or_lt (calculateHandScore p.hand) 11 with h1 | h1 <;>
        simp [h1, not_le.mpr h1, le_of_lt] <;> omega

/-- C1: `canPlayerDrop(player, isFirstTurn)` returns true iff the player has
no pending penalties and the hand score is ≤ 11, or it is the first turn and
the score is ≤ 41, or the score is ≤ 50; in particular it is false whenever
penalties are positive or the score exceeds 50. -/
theorem tonk_C1_canPlayerDrop_iff (p : Player) (ft : Bool) :
    canPlayerDrop p ft = true ↔
      ¬ p.penalties > 0 ∧
        (calculateHandScore p.hand ≤ 11 ∨
          (ft = true ∧ calculateHandScore p.hand ≤ 41) ∨
          calculateHandScore p.hand ≤ 50) :=
  canPlayerDrop_characterization p ft

/-- C7 counterexample: `p12` holds a hand scoring exactly 12 with no
penalties, yet `canPlayerDrop p12 false` returns `true` (the regular ≤ 50
rule applies), contradicting the claim that it returns `false`. -/
theorem tonk_C7_counterexample :
    calculateHandScore p12.hand = 12 ∧ p12.penalties = 0 ∧
      canPlayerDrop p12 false = true := by
  decide

/-- C7 amended: a hand scoring exactly 12 held by a player with no
penalties IS droppable even outside the first turn, because any score ≤ 50
with no penalties is droppable. -/
theorem tonk_C7_score12_droppable (p : Player) (hpen : ¬ p.penalties > 0)
    (hscore : calculateHandScore p.hand = 12) :
    canPlayerDrop p false = true := by
  rw [canPlayerDrop_characterization]
  exact ⟨hpen, Or.inr (Or.inr (by rw [hscore]; omega))⟩

/-- Witness for the amended C7 at the concrete score-12 player. -/
theorem tonk_C7_score12_droppable_witness : canPlayerDrop p12 false = true :=
  tonk_C7_score12_droppable p12 (by decide) (by decide)

/-- C3, evaluated at the failing input: `p0` draws the 7♠ from the deck
while `p1` holds the set 7♥7♦7♣ (and `p2`, `p3` hold no spreads and are not
hit).  The spread scan confirms that only `p1`'s hand contains a spread hit
by the drawn card, yet after the draw `p1` keeps `(penalties, hitCount) =
(0, 0)` while `p2` and `p3` — whose own spreads were not hit — are set to
`(2, 1)`: `applyHitPenalties` penalizes player `p` when `wouldHitSpread`
finds a hit among the players OTHER than `p`, instead of penalizing the
owner of the hit spread. -/
theorem tonk_C3_hit_penalty_misdirected :
    ((gHit.players.get? 1).map
        (fun p => (findHitSpread (mkCard "d2" "spades" "7" 7)
          (findExistingSpreads p.hand)).isSome) = some true) ∧
    ((gHit.players.get? 2).map
        (fun p => (findHitSpread (mkCard "d2" "spades" "7" 7)
          (findExistingSpreads p.hand)).isSome) = some false) ∧
    ((gHit.players.get? 3).map
        (fun p => (findHitSpread (mkCard "d2" "spades" "7" 7)
          (findExistingSpreads p.hand)).isSome) = some false) ∧
    drawPenaltyView (handleDraw gHit 0 false (fun _ => 0)) =
      some [(0, 0), (0, 0), (2, 1), (2, 1)] ∧
    drawPenaltyView (handleDraw gHit 0 true (fun _ => 0)) =
      some [(0, 0), (0, 0), (0, 0), (0, 0)] := by
  decide

/-- C5 counterexample: validation accepts a second draw in the same turn
(`gTurnA`: the current player has `hasDrawn = true` and a deck draw is still
valid) and accepts a discard and a drop from a player who has not drawn
this turn (`gTurnB`: `hasDrawn = false`). -/
theorem tonk_C5_counterexample :
    ((gTurnA.players.get? 0).map Player.hasDrawn = some true ∧
      (isValidMove gTurnA "p0" "draw" { source := some "deck" }).valid = true) ∧
    ((gTurnB.players.get? 0).map Player.hasDrawn = some false ∧
      (isValidMove gTurnB "p0" "discard" { cardId := some "b1" }).valid = true ∧
      (isValidMove gTurnB "p0" "drop" {}).valid = true) := by
  decide

/-- C6 counterexample: `p3` has dropped while still holding one penalty
turn; the discard by `p0` decrements the dropped player's penalties from 1
to 0, so a dropped player's penalties are not frozen. -/
theorem tonk_C6_counterexample :
    (gFrozen.players.get? 3).map Player.isDropped = some true ∧
    (gFrozen.players.get? 3).map Player.penalties = some 1 ∧
    discardPenaltyAt (handleDiscard gFrozen 0 "x1") 3 = some 0 := by
  decide

/-- C9 counterexample: sanitizing for viewer `u1` leaves the dropped
opponent `p1`'s real card fully visible (suit stays `hearts`), while the
active opponent `p2`'s card is masked — the claim that EVERY other player's
hand is masked is false. -/
theorem tonk_C9_counterexample :
    (gView.players.get? 1).map Player.isDropped = some true ∧
    ((sanitizeGameForPlayer gView "u1").players.get? 1).map
        (fun p => p.hand.map Card.suit) = some ["hearts"] ∧
    ((sanitizeGameForPlayer gView "u1").players.get? 2).map
        (fun p => p.hand.map Card.suit) = some ["?"] := by
  decide

theorem multiplier_formula (score : Int) (ft : Bool) :
    calculateWinningMultiplier score ft =
      if score ≤ 11 then 3
      else if ft = true ∧ score = 41 then 3
      else if score = 50 then 2
      else 1 := by
  unfold calculateWinningMultiplier
  rcases ft <;> split_ifs <;> simp_all <;> omega

theorem handleDrop_winnings (g g' : Game) (i : Nat) (w : Int)
    (h : handleDrop g i = Except.ok (g', some w)) :
    g'.status = "ended" ∧ w = g.pot * g'.winningMultiplier := by
  unfold handleDrop at h
  cases hp : g.players.get? i with
  | none => rw [hp] at h; exact absurd h (by simp)
  | some player =>
    rw [hp] at h
    simp only [] at h
    split at h
    · simp only [endGame, Except.ok.injEq, Prod.mk.injEq, Option.some.injEq] at h
      obtain ⟨hg, hw⟩ := h
      subst hg
      exact ⟨rfl, by rw [← hw]⟩
    · simp at h

/-- C4: the winning multiplier is 3 for score ≤ 11, 3 for a first-turn 41,
2 for exactly 50, else 1; a fresh game's pot is stake × 4; ending the game
pays `pot × multiplier`; a drop that ends the game yields exactly that
payout; the winnings are credited to a human (non-`ai-`) winner's balance;
and the stake-5, score-8, non-first-turn drop pays exactly 60. -/
theorem tonk_C4_multiplier_and_payout :
    (∀ (score : Int) (ft : Bool),
        calculateWinningMultiplier score ft =
          if score ≤ 11 then 3
          else if ft = true ∧ score = 41 then 3
          else if score = 50 then 2
          else 1) ∧
    (∀ (stake : Int) (uid uname : String) (rs : Nat → Nat),
        (createGameState stake uid uname rs).pot = stake * 4) ∧
    (∀ (g : Game) (wid : String) (m : Int),
        (endGame g wid m).1.status = "ended" ∧ (endGame g wid m).2 = g.pot * m) ∧
    (∀ (g g' : Game) (i : Nat) (w : Int),
        handleDrop g i = Except.ok (g', some w) →
        g'.status = "ended" ∧ w = g.pot * g'.winningMultiplier) ∧
    (∀ (balance winnings : Int), creditWinner "u1" balance winnings = balance + winnings) ∧
    (gPayout.stake = 5 ∧ gPayout.pot = gPayout.stake * 4 ∧
      (gPayout.players.get? 0).map (fun p => calculateHandScore p.hand) = some 8 ∧
      handleDrop gPayout 0 = Except.ok (dropOutcome gPayout 0, some 60) ∧
      (dropOutcome gPayout 0).status = "ended" ∧
      (dropOutcome gPayout 0).winningMultiplier = 3) := by
  refine ⟨multiplier_formula, fun stake uid uname rs => rfl,
    fun g wid m => ⟨rfl, rfl⟩, handleDrop_winnings, fun balance winnings => ?_, ?_⟩
  · unfold creditWinner
    simp [charListIsPrefixOf]
  · exact ⟨by decide, by decide, by decide, by rfl, by decide, by decide⟩

/-- Witness for C4's drop-ends-game conjunct at the concrete payout game. -/
theorem tonk_C4_witness :
    (dropOutcome gPayout 0).status = "ended" ∧
      60 = gPayout.pot * (dropOutcome gPayout 0).winningMultiplier :=
  tonk_C4_multiplier_and_payout.2.2.2.1 gPayout (dropOutcome gPayout 0) 0 60
    (by rfl)

theorem updateAt_eq_set (l : List Player) (i : Nat) (f : Player → Player)
    (p : Player) (hp : l[i]? = some p) : updateAt l i f = l.set i (f p) := by
  unfold updateAt
  rw [List.get?_eq_getElem?, hp]

theorem handleDiscard_other_players (g g' : Game) (i : Nat) (cid : String)
    (h : handleDiscard g i cid = Except.ok g') (j : Nat) (hne : j ≠ i)
    (p : Player) (hj : g.players[j]? = some p) :
    ∃ p', g'.players[j]? = some p' ∧ p'.hand = p.hand ∧ p'.score = p.score ∧
      p'.isDropped = p.isDropped ∧ p'.hitCount = p.hitCount ∧
      p'.penalties = (if p.penalties > 0 then p.penalties - 1 else p.penalties) := by
  unfold handleDiscard at h
  rcases hp : g.players[i]? with _ | player
  · simp [hp] at h
  rcases hidx : player.hand.findIdx? (fun card => card.id = cid) with _ | cardIndex
  · simp [hp, hidx] at h
  rcases hc : player.hand[cardIndex]? with _ | card
  · simp [hp, hidx, hc] at h
  simp only [List.get?_eq_getElem?, hp, hidx, hc, Except.ok.injEq] at h
  subst h
  show ∃ p', (List.map _ (updateAt g.players i _))[j]? = some p' ∧ _
  rw [List.getElem?_map, updateAt_eq_set g.players i _ player hp,
    List.getElem?_set_ne (Ne.symm hne), hj]
  exact ⟨_, rfl, rfl, rfl, rfl, rfl, rfl⟩

/-- C8: when `isValidMove` rejects an action, `performAction` never returns
an updated game (the state is unchanged: validation runs before any
handler), and — whenever the pre-checks that precede validation pass — the
caller receives exactly the validation error. -/
theorem tonk_C8_reject_no_mutation (g : Game) (uid action : String)
    (d : ActionData) (rs : Nat → Nat)
    (h : (isValidMove g uid action d).valid = false) :
    (∀ g', performAction g uid action d rs ≠ Except.ok g') ∧
    (g.status = "playing" →
      ∀ i, g.players.findIdx? (fun p => p.id = uid) = some i →
        performAction g uid action d rs =
          Except.error ((isValidMove g uid action d).error.getD "Invalid action")) := by
  constructor
  · intro g'
    unfold performAction
    split
    · simp
    · cases hf : g.players.findIdx? (fun p => p.id = uid) <;> simp [hf, h]
  · intro hstatus i hf
    unfold performAction
    simp [hstatus, hf, h]

/-- Witness for C8: the out-of-turn draw request by `p1` is rejected and
surfaces the validation error. -/
theorem tonk_C8_witness :
    performAction gTurnB "p1" "draw" { source := some "deck" } (fun _ => 0) =
      Except.error
        ((isValidMove gTurnB "p1" "draw" { source := some "deck" }).error.getD
          "Invalid action") :=
  (tonk_C8_reject_no_mutation gTurnB "p1" "draw" { source := some "deck" }
    (fun _ => 0) (by decide)).2 (by rfl) 1 (by decide)

/-- C9 corrected: the sanitized view masks the hand of every OTHER player
that has not dropped — each such card keeps its id but shows suit `?`,
rank `?`, value 0 and hidden — while the viewer's own players entry and any
dropped player's entry are left completely unmodified. -/
theorem tonk_C9_sanitize_masks_active_others (g : Game) (pid : String)
    (i : Nat) (p : Player) (hp : g.players[i]? = some p) :
    ∃ p', (sanitizeGameForPlayer g pid).players[i]? = some p' ∧
      ((p.id = pid ∨ p.isDropped = true) → p' = p) ∧
      (p.id ≠ pid → p.isDropped = false →
        p'.hand = p.hand.map hideCardView ∧
        p'.hand.map Card.id = p.hand.map Card.id ∧
        ∀ c ∈ p'.hand,
          c.suit = "?" ∧ c.rank = "?" ∧ c.value = 0 ∧ c.isHidden = true) := by
  refine ⟨if p.id ≠ pid && !p.isDropped then
      { p with hand := p.hand.map hideCardView } else p, ?_, ?_, ?_⟩
  · show (g.players.map _)[i]? = some _
    rw [List.getElem?_map, hp]
    rfl
  · intro hcase
    rcases hcase with hcase | hcase <;> simp [hcase]
  · intro h1 h2
    rw [if_pos (by simp [h1, h2])]
    refine ⟨rfl, ?_, ?_⟩
    · simp only [List.map_map]
      exact List.map_congr_left (fun c _ => rfl)
    · intro c hc
      rcases List.mem_map.mp hc with ⟨c0, _, rfl⟩
      exact ⟨rfl, rfl, rfl, rfl⟩

/-- Witness for the corrected C9 at the concrete view game (active
opponent `p2` of viewer `u1`). -/
theorem tonk_C9_witness :
    ∃ p', (sanitizeGameForPlayer gView "u1").players[2]? = some p' ∧
      (((mkPlayer "p2" [mkCard "sc2" "clubs" "3" 3]).id = "u1" ∨
          (mkPlayer "p2" [mkCard "sc2" "clubs" "3" 3]).isDropped = true) →
        p' = mkPlayer "p2" [mkCard "sc2" "clubs" "3" 3]) ∧
      ((mkPlayer "p2" [mkCard "sc2" "clubs" "3" 3]).id ≠ "u1" →
        (mkPlayer "p2" [mkCard "sc2" "clubs" "3" 3]).isDropped = false →
        p'.hand = (mkPlayer "p2" [mkCard "sc2" "clubs" "3" 3]).hand.map hideCardView ∧
        p'.hand.map Card.id =
          (mkPlayer "p2" [mkCard "sc2" "clubs" "3" 3]).hand.map Card.id ∧
        ∀ c ∈ p'.hand,
          c.suit = "?" ∧ c.rank = "?" ∧ c.value = 0 ∧ c.isHidden = true) :=
  tonk_C9_sanitize_masks_active_others gView "u1" 2
    (mkPlayer "p2" [mkCard "sc2" "clubs" "3" 3]) (by rfl)

theorem insertStable_perm {α : Type} (bef : α → α → Bool) (x : α) :
    ∀ l : List α, List.Perm (insertStable bef x l) (x :: l)
  | [] => List.Perm.refl _
  | y :: ys => by
    unfold insertStable
    split
    · exact ((insertStable_perm bef x ys).cons y).trans (List.Perm.swap x y ys)
    · exact List.Perm.refl _

theorem sortStable_perm {α : Type} (bef : α → α → Bool) :
    ∀ l : List α, List.Perm (sortStable bef l) l
  | [] => List.Perm.refl _
  | x :: xs =>
    (insertStable_perm bef x (sortStable bef xs)).trans
      ((sortStable_perm bef xs).cons x)

/-- C10: on any non-empty hand `decideCardToDiscard` names a card that is
present in that hand, and a one-card hand's single card is returned
unconditionally. -/
theorem tonk_C10_discard_chooses_from_hand :
    (∀ (hand : List Card) (g : Game) (diff : String), hand ≠ [] →
      ∃ c, c ∈ hand ∧ decideCardToDiscard hand g diff = some c.id) ∧
    (∀ (c : Card) (g : Game) (diff : String),
      decideCardToDiscard [c] g diff = some c.id) := by
  constructor
  · intro hand g diff hne
    match hand with
    | [] => exact absurd rfl hne
    | [c] => exact ⟨c, List.mem_singleton_self c, rfl⟩
    | c1 :: c2 :: rest =>
      have heq : decideCardToDiscard (c1 :: c2 :: rest) g diff =
          match (sortStable (fun a b => a.priority > b.priority)
              (analyzeDiscardCandidates (c1 :: c2 :: rest) g diff)).head? with
          | some cand => some (if cand.card.id = "" then c1.id else cand.card.id)
          | none => some c1.id := rfl
      cases hs : sortStable (fun a b => a.priority > b.priority)
          (analyzeDiscardCandidates (c1 :: c2 :: rest) g diff) with
      | nil =>
        refine ⟨c1, List.mem_cons_self c1 _, ?_⟩
        rw [heq, hs]
        rfl
      | cons cand tail =>
        have hmemS : cand ∈ sortStable (fun a b => a.priority > b.priority)
            (analyzeDiscardCandidates (c1 :: c2 :: rest) g diff) := by
          rw [hs]; exact List.mem_cons_self cand tail
        have hmemC : cand ∈ analyzeDiscardCandidates (c1 :: c2 :: rest) g diff :=
          (sortStable_perm _ _).subset hmemS
        obtain ⟨card0, hcard0, hc⟩ := List.mem_map.mp hmemC
        have hcc : cand.card = card0 := by rw [← hc]
        by_cases hid : cand.card.id = ""
        · refine ⟨c1, List.mem_cons_self c1 _, ?_⟩
          rw [heq, hs]
          simp [hid]
        · refine ⟨cand.card, hcc ▸ hcard0, ?_⟩
          rw [heq, hs]
          simp [hid]
  · intro c g diff
    rfl

/-- Witness for C10 at a concrete two-card hand. -/
theorem tonk_C10_witness :
    ∃ c, c ∈ aiHand ∧ decideCardToDiscard aiHand gView "medium" = some c.id :=
  tonk_C10_discard_chooses_from_hand.1 aiHand gView "medium" (by decide)

theorem find?_enumFrom_hasDrawn (b : Bool) (pid : String) :
    ∀ (l : List Player) (n : Nat),
      (List.enumFrom n (l.map (fun p => { p with hasDrawn := b }))).find?
          (fun ip => ip.2.id = pid) =
        ((List.enumFrom n l).find? (fun ip => ip.2.id = pid)).map
          (fun ip => (ip.1, { ip.2 with hasDrawn := b }))
  | [], _ => rfl
  | x :: xs, n => by
    by_cases hx : x.id = pid
    · simp [List.enumFrom, List.find?, hx]
    · simp [List.enumFrom, List.find?, hx, find?_enumFrom_hasDrawn b pid xs (n + 1)]

theorem all_map_hasDrawn (l : List Player) (b : Bool) (q : Player → Bool)
    (hq : ∀ p, q { p with hasDrawn := b } = q p) :
    (l.map (fun p => { p with hasDrawn := b })).all q = l.all q := by
  induction l with
  | nil => rfl
  | cons x xs ih => simp [List.all_cons, hq, ih]

theorem validateDrop_hasDrawn (g : Game) (p : Player) (d : ActionData) (b : Bool) :
    validateDrop
      { g with players := g.players.map (fun q => { q with hasDrawn := b }) }
      { p with hasDrawn := b } d = validateDrop g p d := by
  unfold validateDrop
  have hall := all_map_hasDrawn g.players b
    (fun q => !q.isDropped || q.id == p.id) (fun q => rfl)
  simp only [hall]
  rfl

/-- C5 corrected: `isValidMove` never consults `hasDrawn` — setting every
player's `hasDrawn` flag to any value leaves every validation verdict
unchanged, so validation does not enforce the draw-then-discard/drop turn
structure. -/
theorem tonk_C5_validation_ignores_hasDrawn (g : Game) (pid action : String)
    (d : ActionData) (b : Bool) :
    isValidMove
      { g with players := g.players.map (fun p => { p with hasDrawn := b }) }
      pid action d = isValidMove g pid action d := by
  unfold isValidMove
  unfold List.enum
  rw [find?_enumFrom_hasDrawn b pid g.players 0]
  cases hE : (List.enumFrom 0 g.players).find? (fun ip => ip.2.id = pid) with
  | none => rfl
  | some ip =>
    simp only [Option.map_some']
    rw [validateDrop_hasDrawn g ip.2 d b]
    rfl

theorem bag_set {α : Type} :
    ∀ (l : List α) (i : Nat) (x a : α), l.get? i = some x →
      (↑(l.set i a) : Multiset α) + {x} = ↑l + {a}
  | [], _, _, _, h => absurd h (by simp)
  | y :: t, 0, x, a, h => by
    injection h with h
    rw [← h]
    show (↑(a :: t) : Multiset α) + {y} = ↑(y :: t) + {a}
    rw [← Multiset.cons_coe, ← Multiset.cons_coe, ← Multiset.singleton_add,
      ← Multiset.singleton_add]
    abel
  | y :: t, i + 1, x, a, h => by
    have h' : t.get? i = some x := h
    show (↑(y :: t.set i a) : Multiset α) + {x} = ↑(y :: t) + {a}
    rw [← Multiset.cons_coe, ← Multiset.cons_coe, ← Multiset.singleton_add,
      ← Multiset.singleton_add, add_assoc, add_assoc, bag_set t i x a h']

theorem set_self {α : Type} :
    ∀ (l : List α) (i : Nat) (a : α), l.get? i = some a → l.set i a = l
  | [], _, _, h => absurd h (by simp)
  | y :: t, 0, a, h => by
    injection h with h
    rw [← h]
    rfl
  | y :: t, i + 1, a, h => by
    have h' : t.get? i = some a := h
    show y :: t.set i a = y :: t
    rw [set_self t i a h']

theorem bag_swapIdx {α : Type} (l : List α) (i j : Nat) :
    (↑(swapIdx l i j) : Multiset α) = ↑l := by
  unfold swapIdx
  rcases h1 : l.get? i with _ | a <;> rcases h2 : l.get? j with _ | b <;> try rfl
  have hj : (l.set i b).get? j = some b := by
    rcases eq_or_ne i j with rfl | hij
    · rw [List.get?_set_eq, h1]
      rfl
    · rw [List.get?_set_ne _ _ hij, h2]
  have e1 := bag_set (l.set i b) j b a hj
  have e2 := bag_set l i a b h1
  exact add_right_cancel (e1.trans e2)

theorem bag_fisherYatesAux {α : Type} (rs : Nat → Nat) :
    ∀ (k : Nat) (l : List α), (↑(fisherYatesAux rs k l) : Multiset α) = ↑l
  | 0, _ => rfl
  | k + 1, l => by
    show (↑(fisherYatesAux rs k (swapIdx l k (rs (k + 1) % (k + 1)))) : Multiset α) = ↑l
    rw [bag_fisherYatesAux rs k, bag_swapIdx]

theorem bag_shuffle {α : Type} (l : List α) (rs : Nat → Nat) :
    (↑(shuffle l rs) : Multiset α) = ↑l :=
  bag_fisherYatesAux rs l.length l

theorem bag_reshuffleDeck (deck discardPile : List Card) (rs : Nat → Nat) :
    (↑(reshuffleDeck deck discardPile rs).1 : Multiset Card) +
      ↑(reshuffleDeck deck discardPile rs).2 = ↑deck + ↑discardPile := by
  unfold reshuffleDeck
  split
  · rfl
  rcases discardPile with _ | ⟨top, rest⟩
  · rfl
  show (↑(shuffle (deck ++ rest) rs) : Multiset Card) + ↑[top] =
    ↑deck + ↑(top :: rest)
  rw [bag_shuffle]
  simp only [← Multiset.coe_add, ← Multiset.cons_coe, ← Multiset.singleton_add,
    Multiset.coe_nil, add_zero]
  abel

theorem map_set_comm {α β : Type} (f : α → β) :
    ∀ (l : List α) (i : Nat) (a : α), (l.set i a).map f = (l.map f).set i (f a)
  | [], _, _ => rfl
  | y :: t, 0, a => rfl
  | y :: t, i + 1, a => by
    show f y :: (t.set i a).map f = f y :: (t.map f).set i (f a)
    rw [map_set_comm f t i a]

theorem bag_hands_set :
    ∀ (ps : List Player) (i : Nat) (p p' : Player), ps.get? i = some p →
      (↑(((ps.set i p').map Player.hand).flatten) : Multiset Card) + ↑p.hand =
        ↑((ps.map Player.hand).flatten) + ↑p'.hand
  | [], _, _, _, h => absurd h (by simp)
  | q :: t, 0, p, p', h => by
    injection h with h
    rw [← h]
    show (↑(p'.hand ++ (t.map Player.hand).flatten) : Multiset Card) + ↑q.hand =
      ↑(q.hand ++ (t.map Player.hand).flatten) + ↑p'.hand
    simp only [← Multiset.coe_add]
    abel
  | q :: t, i + 1, p, p', h => by
    have h' : t.get? i = some p := h
    show (↑(q.hand ++ ((t.set i p').map Player.hand).flatten) : Multiset Card) +
        ↑p.hand = ↑(q.hand ++ (t.map Player.hand).flatten) + ↑p'.hand
    simp only [← Multiset.coe_add]
    rw [add_assoc, add_assoc, bag_hands_set t i p p' h']

theorem map_hand_of_map (f : Player → Player) (hf : ∀ q, (f q).hand = q.hand)
    (ps : List Player) : (ps.map f).map Player.hand = ps.map Player.hand := by
  rw [List.map_map]
  exact List.map_congr_left (fun q _ => hf q)

theorem map_hand_updateAt (ps : List Player) (i : Nat) (f : Player → Player)
    (hf : ∀ q, (f q).hand = q.hand) :
    (updateAt ps i f).map Player.hand = ps.map Player.hand := by
  unfold updateAt
  rcases hp : ps.get? i with _ | p
  · rfl
  show ((ps.set i (f p)).map Player.hand) = ps.map Player.hand
  rw [map_set_comm, hf p]
  apply set_self
  rw [List.get?_map, hp]
  rfl

theorem bag_hands_applyHitGo (c : Card) (pid : String) :
    ∀ (fuel i : Nat) (ps : List Player) (pens : List Penalty),
      ((applyHitGo c pid fuel i ps pens).1).map Player.hand = ps.map Player.hand
  | 0, _, _, _ => rfl
  | fuel + 1, i, ps, pens => by
    unfold applyHitGo
    split
    · rfl
    rename_i player hp
    split
    · exact bag_hands_applyHitGo c pid fuel (i + 1) ps pens
    split
    · exact bag_hands_applyHitGo c pid fuel (i + 1) ps pens
    exact (bag_hands_applyHitGo c pid fuel (i + 1) _ _).trans (by
      rw [map_set_comm]
      apply set_self
      rw [List.get?_map, hp]
      rfl)

theorem bag_hands_applyHitPenalties (ps : List Player) (c : Card) (pid : String) :
    ((applyHitPenalties ps c pid).1).map Player.hand = ps.map Player.hand :=
  bag_hands_applyHitGo c pid ps.length 0 ps []

theorem bag_eraseIdx {α : Type} :
    ∀ (l : List α) (i : Nat) (x : α), l.get? i = some x →
      (↑(l.eraseIdx i) : Multiset α) + {x} = ↑l
  | [], _, _, h => absurd h (by simp)
  | y :: t, 0, x, h => by
    injection h with h
    rw [← h]
    show (↑t : Multiset α) + {y} = ↑(y :: t)
    rw [← Multiset.cons_coe, ← Multiset.singleton_add]
    abel
  | y :: t, i + 1, x, h => by
    have h' : t.get? i = some x := h
    show (↑(y :: t.eraseIdx i) : Multiset α) + {x} = ↑(y :: t)
    rw [← Multiset.cons_coe, ← Multiset.cons_coe, ← Multiset.singleton_add,
      ← Multiset.singleton_add, add_assoc, bag_eraseIdx t i x h']

theorem bag_hands_push (g : Game) (i : Nat) (c : Card) (p : Player)
    (hp : g.players.get? i = some p) :
    (↑(((updateAt g.players i
        (fun q => { q with hand := q.hand ++ [c] })).map Player.hand).flatten) :
      Multiset Card) = ↑((g.players.map Player.hand).flatten) + {c} := by
  have hp' : g.players[i]? = some p := by rw [← List.get?_eq_getElem?]; exact hp
  rw [updateAt_eq_set g.players i _ p hp']
  have hb := bag_hands_set g.players i p { p with hand := p.hand ++ [c] } hp
  have hsplit : (↑(({ p with hand := p.hand ++ [c] } : Player).hand) : Multiset Card)
      = ↑p.hand + {c} := by
    show (↑(p.hand ++ [c]) : Multiset Card) = ↑p.hand + {c}
    rw [← Multiset.coe_add]
    rfl
  rw [hsplit] at hb
  apply add_right_cancel (b := (↑p.hand : Multiset Card))
  rw [hb]
  abel

theorem bag_allCards_drawUpdate (g : Game) (i : Nat) (pid : String) (c : Card)
    (fd : Bool) (p : Player) (hp : g.players.get? i = some p) :
    (↑(allCards (drawUpdate g i pid c fd)) : Multiset Card) =
      ↑(allCards g) + {c} := by
  unfold drawUpdate allCards
  cases fd
  · simp only [Bool.false_eq_true, if_false]
    simp only [← Multiset.coe_add]
    rw [map_hand_updateAt _ i
        (fun q => { q with score := calculateHandScore q.hand, canDrop := canPlayerDrop q false, hasDrawn := true })
        (fun q => rfl),
      bag_hands_applyHitPenalties, bag_hands_push g i c p hp]
    abel
  · simp only [if_true]
    simp only [← Multiset.coe_add]
    rw [map_hand_updateAt _ i
        (fun q => { q with score := calculateHandScore q.hand, canDrop := canPlayerDrop q false, hasDrawn := true })
        (fun q => rfl),
      bag_hands_push g i c p hp]
    abel

theorem bag_cons_split (c : Card) (rest : List Card) :
    ((c :: rest : List Card) : Multiset Card) = ↑rest + {c} := by
  rw [← Multiset.cons_coe, ← Multiset.singleton_add]
  abel

theorem bag_handleDraw (g g' : Game) (i : Nat) (fd : Bool) (rs : Nat → Nat)
    (h : handleDraw g i fd rs = Except.ok g') :
    (↑(allCards g') : Multiset Card) = ↑(allCards g) := by
  unfold handleDraw at h
  split at h
  · exact absurd h (by simp)
  rename_i player hp
  split at h
  case isTrue =>
    split at h
    · exact absurd h (by simp)
    rename_i drawnCard rest heq
    injection h with h
    subst h
    refine (bag_allCards_drawUpdate { g with discardPile := rest } i player.id drawnCard true player hp).trans ?_
    unfold allCards
    simp only [← Multiset.coe_add]
    rw [heq, bag_cons_split]
    abel
  case isFalse =>
    dsimp only [] at h
    by_cases hres : needsReshuffle g.deck g.discardPile = true
    · rw [if_pos hres] at h
      split at h
      · exact absurd h (by simp)
      rename_i drawnCard hlast
      injection h with h
      subst h
      refine (bag_allCards_drawUpdate { g with deck := (reshuffleDeck g.deck g.discardPile rs).1.dropLast, discardPile := (reshuffleDeck g.deck g.discardPile rs).2 } i player.id drawnCard false player hp).trans ?_
      have hsplit :
          (reshuffleDeck g.deck g.discardPile rs).1.dropLast ++ [drawnCard] =
            (reshuffleDeck g.deck g.discardPile rs).1 :=
        List.dropLast_append_getLast? drawnCard (by rw [Option.mem_def]; exact hlast)
      have hdeck : (↑(reshuffleDeck g.deck g.discardPile rs).1 : Multiset Card) =
          ↑(reshuffleDeck g.deck g.discardPile rs).1.dropLast + {drawnCard} := by
        conv_lhs => rw [← hsplit]
        rw [← Multiset.coe_add]
        rfl
      have hres2 := bag_reshuffleDeck g.deck g.discardPile rs
      unfold allCards
      simp only [← Multiset.coe_add]
      rw [show (↑((g.players.map Player.hand).flatten) : Multiset Card) +
          ↑(reshuffleDeck g.deck g.discardPile rs).1.dropLast +
          ↑(reshuffleDeck g.deck g.discardPile rs).2 + {drawnCard} =
          ↑((g.players.map Player.hand).flatten) +
          ((↑(reshuffleDeck g.deck g.discardPile rs).1.dropLast + {drawnCard}) +
          ↑(reshuffleDeck g.deck g.discardPile rs).2) from by abel]
      rw [← hdeck, hres2]
      abel
    · rw [if_neg hres] at h
      split at h
      · exact absurd h (by simp)
      rename_i drawnCard hlast
      injection h with h
      subst h
      refine (bag_allCards_drawUpdate { g with deck := g.deck.dropLast } i player.id drawnCard false player hp).trans ?_
      have hsplit : g.deck.dropLast ++ [drawnCard] = g.deck :=
        List.dropLast_append_getLast? drawnCard (by rw [Option.mem_def]; exact hlast)
      have hdeck : (↑g.deck : Multiset Card) =
          ↑g.deck.dropLast + {drawnCard} := by
        conv_lhs => rw [← hsplit]
        rw [← Multiset.coe_add]
        rfl
      unfold allCards
      simp only [← Multiset.coe_add]
      rw [hdeck]
      abel

theorem updateAt_eq_set_get? (l : List Player) (i : Nat) (f : Player → Player)
    (p : Player) (hp : l.get? i = some p) : updateAt l i f = l.set i (f p) := by
  unfold updateAt
  rw [hp]

theorem bag_hands_erase (ps : List Player) (i idx : Nat) (p : Player)
    (card : Card) (hp : ps.get? i = some p) (hcard : p.hand.get? idx = some card)
    (F : Player → Player) (hF : ∀ q, (F q).hand = q.hand.eraseIdx idx) :
    (↑(((updateAt ps i F).map Player.hand).flatten) : Multiset Card) + {card} =
      ↑((ps.map Player.hand).flatten) := by
  rw [updateAt_eq_set_get? ps i F p hp]
  have hb := bag_hands_set ps i p (F p) hp
  rw [hF p] at hb
  have he := bag_eraseIdx p.hand idx card hcard
  apply add_right_cancel (b := (↑p.hand : Multiset Card))
  calc (↑(((ps.set i (F p)).map Player.hand).flatten) : Multiset Card) + {card} +
        ↑p.hand
      = ↑(((ps.set i (F p)).map Player.hand).flatten) + ↑p.hand + {card} := by abel
    _ = ↑((ps.map Player.hand).flatten) + ↑(p.hand.eraseIdx idx) + {card} := by
        rw [hb]
    _ = ↑((ps.map Player.hand).flatten) + (↑(p.hand.eraseIdx idx) + {card}) := by
        abel
    _ = ↑((ps.map Player.hand).flatten) + ↑p.hand := by rw [he]

theorem bag_handleDiscard (g g' : Game) (i : Nat) (cid : String)
    (h : handleDiscard g i cid = Except.ok g') :
    (↑(allCards g') : Multiset Card) = ↑(allCards g) := by
  unfold handleDiscard at h
  split at h
  · exact absurd h (by simp)
  rename_i player hp
  split at h
  · exact absurd h (by simp)
  rename_i cardIndex hidx
  split at h
  · exact absurd h (by simp)
  rename_i card hc
  simp only [Except.ok.injEq] at h
  subst h
  unfold allCards
  dsimp only []
  simp only [← Multiset.coe_add]
  rw [map_hand_of_map (fun p => { p with penalties := if p.penalties > 0 then p.penalties - 1 else p.penalties, canDrop := canPlayerDrop { p with penalties := if p.penalties > 0 then p.penalties - 1 else p.penalties } false }) (fun q => rfl)]
  have herase := bag_hands_erase g.players i cardIndex player card hp hc
    (fun p => { p with hand := p.hand.eraseIdx cardIndex, score := calculateHandScore (p.hand.eraseIdx cardIndex), canDrop := canPlayerDrop { p with hand := p.hand.eraseIdx cardIndex } false, hasDrawn := false })
    (fun q => rfl)
  rw [bag_cons_split]
  calc (↑(((updateAt g.players i _).map Player.hand).flatten) : Multiset Card) +
        ↑g.deck + (↑g.discardPile + {card})
      = ↑(((updateAt g.players i _).map Player.hand).flatten) + {card} +
        ↑g.deck + ↑g.discardPile := by abel
    _ = ↑((g.players.map Player.hand).flatten) + ↑g.deck + ↑g.discardPile := by
        rw [herase]

theorem bag_step (g g' : Game) (h : Step g g') :
    (↑(allCards g') : Multiset Card) = ↑(allCards g) := by
  cases h with
  | draw _ playerIndex fromDiscard rs hstatus hd =>
    exact bag_handleDraw _ _ playerIndex fromDiscard rs hd
  | discard _ playerIndex cardId hstatus hd =>
    exact bag_handleDiscard _ _ playerIndex cardId hd
  | reshuffle rs hstatus =>
    unfold allCards
    dsimp only []
    simp only [← Multiset.coe_add]
    have hres := bag_reshuffleDeck g.deck g.discardPile rs
    calc (↑((g.players.map Player.hand).flatten) : Multiset Card) +
          ↑(reshuffleDeck g.deck g.discardPile rs).1 +
          ↑(reshuffleDeck g.deck g.discardPile rs).2
        = ↑((g.players.map Player.hand).flatten) +
          (↑(reshuffleDeck g.deck g.discardPile rs).1 +
            ↑(reshuffleDeck g.deck g.discardPile rs).2) := by abel
      _ = ↑((g.players.map Player.hand).flatten) +
          (↑g.deck + ↑g.discardPile) := by rw [hres]
      _ = ↑((g.players.map Player.hand).flatten) + ↑g.deck + ↑g.discardPile := by
          abel

theorem bag_reachable (g g' : Game) (h : Reachable g g') :
    (↑(allCards g') : Multiset Card) = ↑(allCards g) := by
  induction h with
  | refl => rfl
  | tail _ hstep ih => exact (bag_step _ _ hstep).trans ih

theorem length_dealOneRound :
    ∀ (hs : List (List Card)) (deck : List Card),
      (dealOneRound hs deck).1.length = hs.length
  | [], _ => rfl
  | h :: t, deck => by
    unfold dealOneRound
    rcases hl : deck.getLast? with _ | c
    · dsimp only []
      show ((h :: (dealOneRound t deck).1)).length = (h :: t).length
      simp [length_dealOneRound t deck]
    · dsimp only []
      show (((h ++ [c]) :: (dealOneRound t deck.dropLast).1)).length =
        (h :: t).length
      simp [length_dealOneRound t deck.dropLast]

theorem length_dealRounds :
    ∀ (n : Nat) (hs : List (List Card)) (deck : List Card),
      (dealRounds n hs deck).1.length = hs.length
  | 0, _, _ => rfl
  | n + 1, hs, deck => by
    unfold dealRounds
    dsimp only []
    rw [length_dealRounds n, length_dealOneRound]

theorem bag_dealOneRound :
    ∀ (hs : List (List Card)) (deck : List Card),
      (↑((dealOneRound hs deck).1.flatten) : Multiset Card) +
        ↑(dealOneRound hs deck).2 = ↑(hs.flatten) + ↑deck
  | [], _ => rfl
  | h :: t, deck => by
    unfold dealOneRound
    rcases hl : deck.getLast? with _ | c
    · dsimp only []
      show (↑((h :: (dealOneRound t deck).1).flatten) : Multiset Card) +
          ↑(dealOneRound t deck).2 = ↑((h :: t).flatten) + ↑deck
      simp only [List.flatten_cons, ← Multiset.coe_add]
      rw [add_assoc, add_assoc, bag_dealOneRound t deck]
    · dsimp only []
      show (↑(((h ++ [c]) :: (dealOneRound t deck.dropLast).1).flatten) :
          Multiset Card) + ↑(dealOneRound t deck.dropLast).2 =
        ↑((h :: t).flatten) + ↑deck
      have hdeck : deck.dropLast ++ [c] = deck :=
        List.dropLast_append_getLast? c (by rw [Option.mem_def]; exact hl)
      simp only [List.flatten_cons, ← Multiset.coe_add]
      calc (↑h : Multiset Card) + ↑[c] +
            ↑(dealOneRound t deck.dropLast).1.flatten +
            ↑(dealOneRound t deck.dropLast).2
          = ↑h + ↑[c] + (↑((dealOneRound t deck.dropLast).1.flatten) +
              ↑(dealOneRound t deck.dropLast).2) := by abel
        _ = ↑h + ↑[c] + (↑(t.flatten) + ↑deck.dropLast) := by
            rw [bag_dealOneRound t deck.dropLast]
        _ = ↑h + ↑(t.flatten) + (↑deck.dropLast + ↑[c]) := by abel
        _ = ↑h + ↑(t.flatten) + ↑deck := by
            rw [show (↑deck.dropLast + ↑[c] : Multiset Card) = ↑deck from by
              rw [Multiset.coe_add, hdeck]]

theorem bag_dealRounds :
    ∀ (n : Nat) (hs : List (List Card)) (deck : List Card),
      (↑((dealRounds n hs deck).1.flatten) : Multiset Card) +
        ↑(dealRounds n hs deck).2 = ↑(hs.flatten) + ↑deck
  | 0, _, _ => rfl
  | n + 1, hs, deck => by
    unfold dealRounds
    dsimp only []
    rw [bag_dealRounds n, bag_dealOneRound]

theorem bag_dealCards (deck : List Card) :
    (↑((dealCards deck 4).1.flatten) : Multiset Card) + ↑(dealCards deck 4).2 =
      ↑deck := by
  unfold dealCards
  rw [bag_dealRounds]
  show (↑(([] : List Card)) : Multiset Card) + ↑deck = ↑deck
  rw [Multiset.coe_nil, zero_add]

theorem map_hand_zip_assign :
    ∀ (ps : List Player) (hs : List (List Card)), ps.length = hs.length →
      ((ps.zip hs).map (fun ph =>
        { ph.1 with hand := ph.2, score := calculateHandScore ph.2 })).map
          Player.hand = hs
  | [], [], _ => rfl
  | [], _ :: _, hlen => by simp at hlen
  | _ :: _, [], hlen => by simp at hlen
  | p :: pt, h :: ht, hlen => by
    show h :: ((pt.zip ht).map _).map Player.hand = h :: ht
    rw [map_hand_zip_assign pt ht (by simpa using hlen)]

theorem bag_createGameState (stake : Int) (uid uname : String) (rs : Nat → Nat) :
    (↑(allCards (createGameState stake uid uname rs)) : Multiset Card) =
      ↑baseDeck := by
  unfold createGameState allCards
  dsimp only []
  have hlen : (mkHumanPlayer uid uname :: (List.range 3).map mkAIPlayer).length =
      (dealCards (createDeck rs) 4).1.length := by
    unfold dealCards
    rw [length_dealRounds]
    rfl
  rw [map_hand_of_map (fun p => { p with canDrop := canPlayerDrop p true })
    (fun q => rfl)]
  rw [map_hand_zip_assign _ _ hlen]
  rcases hl : (dealCards (createDeck rs) 4).2.getLast? with _ | top
  · dsimp only []
    have hnil : (dealCards (createDeck rs) 4).2 = [] :=
      List.getLast?_eq_none_iff.mp hl
    simp only [← Multiset.coe_add, Multiset.coe_nil, add_zero]
    rw [show ((↑((dealCards (createDeck rs) 4).1.flatten) : Multiset Card) +
        ↑(dealCards (createDeck rs) 4).2 = ↑(createDeck rs)) from
      bag_dealCards (createDeck rs)]
    exact bag_shuffle baseDeck rs
  · dsimp only []
    have hsplit : (dealCards (createDeck rs) 4).2.dropLast ++ [top] =
        (dealCards (createDeck rs) 4).2 :=
      List.dropLast_append_getLast? top (by rw [Option.mem_def]; exact hl)
    simp only [← Multiset.coe_add]
    calc (↑((dealCards (createDeck rs) 4).1.flatten) : Multiset Card) +
          ↑(dealCards (createDeck rs) 4).2.dropLast + ↑[top]
        = ↑((dealCards (createDeck rs) 4).1.flatten) +
          (↑(dealCards (createDeck rs) 4).2.dropLast + ↑[top]) := by abel
      _ = ↑((dealCards (createDeck rs) 4).1.flatten) +
          ↑(dealCards (createDeck rs) 4).2 := by
          rw [show ((↑(dealCards (createDeck rs) 4).2.dropLast : Multiset Card) +
            ↑[top] = ↑(dealCards (createDeck rs) 4).2) from by
            rw [Multiset.coe_add, hsplit]]
      _ = ↑(createDeck rs) := bag_dealCards (createDeck rs)
      _ = ↑baseDeck := bag_shuffle baseDeck rs

/-- C2: every game reachable from a freshly created game by draw, discard
and reshuffle operations during `playing` has exactly 40 cards across all
hands, the deck and the discard pile, and no card id appears twice across
or within zones. -/
theorem tonk_C2_deck_integrity (stake : Int) (uid uname : String)
    (rs : Nat → Nat) (g : Game)
    (h : Reachable (createGameState stake uid uname rs) g) :
    (allCards g).length = 40 ∧ ((allCards g).map Card.id).Nodup := by
  have hbag : (↑(allCards g) : Multiset Card) = ↑baseDeck :=
    (bag_reachable _ _ h).trans (bag_createGameState stake uid uname rs)
  have hperm : List.Perm (allCards g) baseDeck := Multiset.coe_eq_coe.mp hbag
  constructor
  · rw [hperm.length_eq]
    decide
  · exact ((hperm.map Card.id).nodup_iff).mpr (by decide)

/-- Witness for C2 at a concrete fresh game (zero steps taken). -/
theorem tonk_C2_witness :
    (allCards (createGameState 5 "u1" "alice" (fun _ => 0))).length = 40 ∧
      ((allCards (createGameState 5 "u1" "alice" (fun _ => 0))).map
        Card.id).Nodup :=
  tonk_C2_deck_integrity 5 "u1" "alice" (fun _ => 0) _ Relation.ReflTransGen.refl

theorem updateAt_get?_ne (ps : List Player) (i j : Nat) (f : Player → Player)
    (hne : j ≠ i) : (updateAt ps i f)[j]? = ps[j]? := by
  unfold updateAt
  rcases hp : ps.get? i with _ | p
  · rfl
  · exact List.getElem?_set_ne (Ne.symm hne)

theorem frozen_applyHitGo (c : Card) (pid : String) :
    ∀ (fuel i : Nat) (ps : List Player) (pens : List Penalty),
      ((applyHitGo c pid fuel i ps pens).1).map
          (fun p => (p.hand, p.score, p.isDropped)) =
        ps.map (fun p => (p.hand, p.score, p.isDropped))
  | 0, _, _, _ => rfl
  | fuel + 1, i, ps, pens => by
    unfold applyHitGo
    split
    · rfl
    rename_i player hp
    split
    · exact frozen_applyHitGo c pid fuel (i + 1) ps pens
    split
    · exact frozen_applyHitGo c pid fuel (i + 1) ps pens
    exact (frozen_applyHitGo c pid fuel (i + 1) _ _).trans (by
      rw [map_set_comm]
      apply set_self
      rw [List.get?_map, hp]
      rfl)

theorem frozen_applyHitPenalties_at (ps : List Player) (c : Card) (pid : String)
    (j : Nat) (p : Player) (hj : ps[j]? = some p) :
    ∃ p', (applyHitPenalties ps c pid).1[j]? = some p' ∧
      p'.hand = p.hand ∧ p'.score = p.score ∧ p'.isDropped = p.isDropped := by
  have h2 : ((applyHitPenalties ps c pid).1.map
      (fun p => (p.hand, p.score, p.isDropped)))[j]? =
      (ps.map (fun p => (p.hand, p.score, p.isDropped)))[j]? := by
    show ((applyHitGo c pid ps.length 0 ps []).1.map _)[j]? = _
    rw [frozen_applyHitGo c pid ps.length 0 ps []]
  rw [List.getElem?_map, List.getElem?_map, hj] at h2
  rcases haps : (applyHitPenalties ps c pid).1[j]? with _ | p2
  · rw [haps] at h2
    exact absurd h2 (by simp)
  · rw [haps] at h2
    simp only [Option.map_some', Option.some.injEq, Prod.mk.injEq] at h2
    exact ⟨p2, rfl, h2.1, h2.2.1, h2.2.2⟩

theorem drawUpdate_other_players (g : Game) (i : Nat) (pid : String) (c : Card)
    (fd : Bool) (j : Nat) (hne : j ≠ i) (p : Player)
    (hj : g.players[j]? = some p) :
    ∃ p', (drawUpdate g i pid c fd).players[j]? = some p' ∧
      p'.hand = p.hand ∧ p'.score = p.score ∧ p'.isDropped = p.isDropped := by
  unfold drawUpdate
  cases fd
  · dsimp only []
    simp only [Bool.false_eq_true, if_false]
    have hj1 : (updateAt g.players i
        (fun q => { q with hand := q.hand ++ [c] }))[j]? = some p := by
      rw [updateAt_get?_ne _ i j _ hne, hj]
    obtain ⟨p', hp', hh, hs, hd⟩ := frozen_applyHitPenalties_at _ c pid j p hj1
    refine ⟨p', ?_, hh, hs, hd⟩
    rw [updateAt_get?_ne _ i j _ hne]
    exact hp'
  · dsimp only []
    simp only [if_true]
    refine ⟨p, ?_, rfl, rfl, rfl⟩
    rw [updateAt_get?_ne _ i j _ hne, updateAt_get?_ne _ i j _ hne, hj]

theorem handleDraw_other_players (g g' : Game) (i : Nat) (fd : Bool)
    (rs : Nat → Nat) (h : handleDraw g i fd rs = Except.ok g') (j : Nat)
    (hne : j ≠ i) (p : Player) (hj : g.players[j]? = some p) :
    ∃ p', g'.players[j]? = some p' ∧ p'.hand = p.hand ∧ p'.score = p.score ∧
      p'.isDropped = p.isDropped := by
  unfold handleDraw at h
  split at h
  · exact absurd h (by simp)
  rename_i player hp
  split at h
  case isTrue =>
    split at h
    · exact absurd h (by simp)
    rename_i drawnCard rest heq
    injection h with h
    subst h
    exact drawUpdate_other_players { g with discardPile := rest } i player.id drawnCard true j hne p hj
  case isFalse =>
    dsimp only [] at h
    by_cases hres : needsReshuffle g.deck g.discardPile = true
    · rw [if_pos hres] at h
      split at h
      · exact absurd h (by simp)
      rename_i drawnCard hlast
      injection h with h
      subst h
      exact drawUpdate_other_players { g with deck := (reshuffleDeck g.deck g.discardPile rs).1.dropLast, discardPile := (reshuffleDeck g.deck g.discardPile rs).2 } i player.id drawnCard false j hne p hj
    · rw [if_neg hres] at h
      split at h
      · exact absurd h (by simp)
      rename_i drawnCard hlast
      injection h with h
      subst h
      exact drawUpdate_other_players { g with deck := g.deck.dropLast } i player.id drawnCard false j hne p hj

theorem handleDrop_other_players (g : Game) (i : Nat) (g2 : Game)
    (w : Option Int) (h : handleDrop g i = Except.ok (g2, w)) (j : Nat)
    (hne : j ≠ i) (p : Player) (hj : g.players[j]? = some p) :
    g2.players[j]? = some p := by
  unfold handleDrop at h
  split at h
  · exact absurd h (by simp)
  rename_i player hp
  dsimp only [] at h
  split at h
  · simp only [Except.ok.injEq, Prod.mk.injEq] at h
    obtain ⟨hg2, _⟩ := h
    subst hg2
    show (updateAt g.players i _)[j]? = some p
    rw [updateAt_get?_ne _ i j _ hne, hj]
  · simp only [Except.ok.injEq, Prod.mk.injEq] at h
    obtain ⟨hg2, _⟩ := h
    subst hg2
    show (updateAt g.players i _)[j]? = some p
    rw [updateAt_get?_ne _ i j _ hne, hj]

theorem enumFrom_find?_spec (q : Player → Bool) :
    ∀ (l : List Player) (k n : Nat) (x : Player),
      (List.enumFrom k l).find? (fun ip => q ip.2) = some (n, x) →
      k ≤ n ∧ l[n - k]? = some x ∧ l.findIdx? q k = some n
  | [], _, _, _, h => absurd h (by simp)
  | y :: t, k, n, x, h => by
    by_cases hy : q y = true
    · rw [show (List.enumFrom k (y :: t)).find? (fun ip => q ip.2) =
          some (k, y) from List.find?_cons_of_pos _ (by simpa using hy)] at h
      injection h with h
      simp only [Prod.mk.injEq] at h
      obtain ⟨hk, hx⟩ := h
      subst hk
      subst hx
      refine ⟨Nat.le_refl k, ?_, ?_⟩
      · simp [Nat.sub_self]
      · show (if q y = true then some k else t.findIdx? q (k + 1)) = some k
        rw [if_pos hy]
    · rw [show (List.enumFrom k (y :: t)).find? (fun ip => q ip.2) =
          (List.enumFrom (k + 1) t).find? (fun ip => q ip.2) from
        List.find?_cons_of_neg _ (by simpa using hy)] at h
      obtain ⟨hkn, hget, hfind⟩ := enumFrom_find?_spec q t (k + 1) n x h
      refine ⟨Nat.le_of_succ_le hkn, ?_, ?_⟩
      · rw [show n - k = (n - (k + 1)) + 1 from by omega,
          List.getElem?_cons_succ]
        exact hget
      · show (if q y = true then some k else t.findIdx? q (k + 1)) = some n
        rw [if_neg hy]
        exact hfind

theorem valid_actor (g : Game) (uid action : String) (d : ActionData) (i : Nat)
    (hf : g.players.findIdx? (fun p => p.id = uid) = some i)
    (hv : (isValidMove g uid action d).valid = true) :
    ∃ actor, g.players[i]? = some actor ∧ actor.isDropped = false := by
  unfold isValidMove at hv
  split at hv
  · exact absurd hv (by simp)
  rename_i ip hE
  split at hv
  · exact absurd hv (by simp)
  rename_i hdrop
  obtain ⟨_, hget, hfind⟩ :=
    enumFrom_find?_spec (fun p => p.id = uid) g.players 0 ip.1 ip.2 hE
  rw [Nat.sub_zero] at hget
  rw [hfind] at hf
  injection hf with hf
  subst hf
  exact ⟨ip.2, hget, by simpa using hdrop⟩

theorem performAction_freezes_dropped (g g' : Game) (uid action : String)
    (d : ActionData) (rs : Nat → Nat)
    (h : performAction g uid action d rs = Except.ok g') (j : Nat) (p : Player)
    (hj : g.players[j]? = some p) (hdropped : p.isDropped = true) :
    ∃ p', g'.players[j]? = some p' ∧ p'.hand = p.hand ∧ p'.score = p.score ∧
      p'.isDropped = true := by
  unfold performAction at h
  split at h
  · exact absurd h (by simp)
  split at h
  · exact absurd h (by simp)
  rename_i i hf
  dsimp only [] at h
  by_cases hvb : (!(isValidMove g uid action d).valid) = true
  · rw [if_pos hvb] at h
    exact absurd h (by simp)
  rw [if_neg hvb] at h
  have hv : (isValidMove g uid action d).valid = true := by
    cases hb : (isValidMove g uid action d).valid
    · exact absurd (by rw [hb]; rfl) hvb
    · rfl
  obtain ⟨actor, hactor, hnotdropped⟩ := valid_actor g uid action d i hf hv
  have hne : j ≠ i := by
    intro hji
    subst hji
    rw [hactor] at hj
    injection hj with hj
    rw [← hj] at hdropped
    rw [hnotdropped] at hdropped
    exact absurd hdropped (by simp)
  split at h
  · obtain ⟨p', h1, h2, h3, h4⟩ := handleDraw_other_players g g' i _ rs h j hne p hj
    exact ⟨p', h1, h2, h3, h4.trans hdropped⟩
  split at h
  · obtain ⟨p', h1, h2, h3, h4, _, _⟩ :=
      handleDiscard_other_players g g' i _ h j hne p hj
    exact ⟨p', h1, h2, h3, h4.trans hdropped⟩
  split at h
  · rcases hD : handleDrop g i with e | pair
    · rw [hD] at h
      exact absurd h (by simp [Except.map])
    · rw [hD] at h
      simp only [Except.map] at h
      injection h with h
      subst h
      exact ⟨p, handleDrop_other_players g i pair.1 pair.2 (by rw [hD]) j hne p hj,
        rfl, rfl, hdropped⟩
  split at h
  · exact absurd h (by simp)
  · exact absurd h (by simp)

/-- C6 corrected: once a player's `isDropped` flag is true, no subsequent
validated action (a draw, discard, drop or spread request dispatched through
`performAction`) modifies that player's hand or score, and the flag stays
set; but the penalties are NOT frozen: like every player's, a dropped
player's positive penalty count is decremented by 1 at the end of any
discard (and deck-draw hit penalties can also touch a dropped player's
penalty fields). -/
theorem tonk_C6_dropped_player_not_frozen :
    (∀ (g g' : Game) (uid action : String) (d : ActionData) (rs : Nat → Nat)
        (j : Nat) (p : Player),
      performAction g uid action d rs = Except.ok g' →
      g.players[j]? = some p → p.isDropped = true →
      ∃ p', g'.players[j]? = some p' ∧ p'.hand = p.hand ∧
        p'.score = p.score ∧ p'.isDropped = true) ∧
    (∀ (g g' : Game) (i : Nat) (cid : String) (j : Nat) (p : Player),
      handleDiscard g i cid = Except.ok g' → j ≠ i → g.players[j]? = some p →
      ∃ p', g'.players[j]? = some p' ∧ p'.hand = p.hand ∧ p'.score = p.score ∧
        p'.isDropped = p.isDropped ∧ p'.hitCount = p.hitCount ∧
        p'.penalties = (if p.penalties > 0 then p.penalties - 1 else p.penalties)) :=
  ⟨fun g g' uid action d rs j p h hj hdropped =>
    performAction_freezes_dropped g g' uid action d rs h j p hj hdropped,
   fun g g' i cid j p h hne hj =>
    handleDiscard_other_players g g' i cid h j hne p hj⟩

/-- Witness for the corrected C6 at the concrete frozen-player game: the
discard request by `p0` goes through `performAction`, and the dropped `p3`
keeps hand, score and dropped flag while the penalties drop from 1 to 0. -/
theorem tonk_C6_witness :
    (∃ p', (discardOutcome gFrozen 0 "x1").players[3]? = some p' ∧
      p'.hand = [mkCard "x5" "spades" "4" 4] ∧ p'.score = 0 ∧
      p'.isDropped = true) ∧
    (∃ p', (discardOutcome gFrozen 0 "x1").players[3]? = some p' ∧
      p'.hand = [mkCard "x5" "spades" "4" 4] ∧ p'.score = 0 ∧
      p'.isDropped = true ∧ p'.hitCount = 0 ∧
      p'.penalties = (if (1 : Int) > 0 then (1 : Int) - 1 else (1 : Int))) :=
  ⟨tonk_C6_dropped_player_not_frozen.1 gFrozen (discardOutcome gFrozen 0 "x1")
      "p0" "discard" { cardId := some "x1" } (fun _ => 0) 3 _ (by rfl) (by rfl)
      (by rfl),
   tonk_C6_dropped_player_not_frozen.2 gFrozen (discardOutcome gFrozen 0 "x1")
      0 "x1" 3 _ (by rfl) (by decide) (by rfl)⟩

